import Mathlib

/-!
Verification of the session-supervision engine of the `tame` repository
(`src/tame/session/*.py`, `src/tame/ui/widgets/session_viewer.py`,
`src/tame/app.py`) against its natural-language specification.

Strings are modelled as `List Char` (`Str` below) so that the text
operations of the source (`str.split`, `str.strip`, the ANSI-stripping
regex substitution) can be given as executable recursive definitions.
Python dictionaries keyed by session id are modelled as association
lists.  Wall-clock values (`time.monotonic()`) are modelled as integer
millisecond counts threaded explicitly.  Regular-expression pattern sets are configuration
data in the source (`SessionManager.__init__` takes a `patterns`
mapping), so a session's compiled matcher is modelled as an abstract
function from a line to an optional scan hit, exactly the interface
`PatternMatcher.scan` exposes; concrete instances used in witnesses and
counterexamples realise literal (metacharacter-free) patterns.
-/

namespace Tame

/-- Text, modelled as a list of characters (Python `str`). -/
abbrev Str := List Char

/-- Python `"\n"`-split of a string (`str.split("\n")`): the list of
fields between newline separators; always non-empty; `n` separators
yield `n + 1` fields, possibly empty. -/
def splitNl : Str → List Str
  | [] => [[]]
  | c :: rest =>
    if c = '\n' then [] :: splitNl rest
    else
      match splitNl rest with
      | [] => [[c]]
      | h :: t => (c :: h) :: t

theorem splitNl_ne_nil (l : Str) : splitNl l ≠ [] := by
  induction l with
  | nil => simp [splitNl]
  | cons c rest ih =>
    simp only [splitNl]
    split
    · simp
    · cases h : splitNl rest <;> simp

/-- ASCII whitespace recognised by Python `str.strip()` (the model is
restricted to the ASCII whitespace characters). -/
def isPySpace (c : Char) : Bool :=
  c = ' ' ∨ c = '\t' ∨ c = '\n' ∨ c = '\r' ∨ c = Char.ofNat 0x0b ∨ c = Char.ofNat 0x0c

/-- Python `str.strip()`: drop leading and trailing whitespace. -/
def pyStrip (l : Str) : Str :=
  ((l.dropWhile isPySpace).reverse.dropWhile isPySpace).reverse

/-- `"\n".join(pieces)` (Python). -/
def joinNl : List Str → Str
  | [] => []
  | [x] => x
  | x :: xs => x ++ '\n' :: joinNl xs

/-- The ESC character (`\x1B`). -/
def escChar : Char := Char.ofNat 0x1b

/-- The BEL character (`\x07`). -/
def belChar : Char := Char.ofNat 0x07

/-- Character class `[@-Z\\-_]` of `ANSI_ESCAPE_RE` (first alternative). -/
def inEscFirstClass (c : Char) : Bool :=
  (0x40 ≤ c.toNat ∧ c.toNat ≤ 0x5a) ∨ (0x5c ≤ c.toNat ∧ c.toNat ≤ 0x5f)

/-- Character class `[0-?]` (CSI parameter bytes, 0x30..0x3F). -/
def isParamByte (c : Char) : Bool := 0x30 ≤ c.toNat ∧ c.toNat ≤ 0x3f

/-- CSI intermediate bytes: space (0x20) through slash (0x2F). -/
def isInterByte (c : Char) : Bool := 0x20 ≤ c.toNat ∧ c.toNat ≤ 0x2f

/-- Character class `[@-~]` (CSI final byte, 0x40..0x7E). -/
def isFinalByte (c : Char) : Bool := 0x40 ≤ c.toNat ∧ c.toNat ≤ 0x7e

/-- Attempt to match the tail of `ANSI_ESCAPE_RE` (everything after the
leading ESC): first alternative a single byte in `inEscFirstClass`;
second a CSI sequence (open bracket, parameter bytes, intermediate
bytes, final byte); third an OSC sequence (close bracket, non-ESC/BEL
body, BEL or ESC-backslash terminator).  Alternatives are tried in
order (Python `re` alternation).  Returns the number of characters of
`l` consumed by the match. -/
def matchEscLen (l : Str) : Option Nat :=
  match l with
  | [] => none
  | c :: rest =>
    if inEscFirstClass c then some 1
    else if c = '[' then
      -- the three CSI byte classes are pairwise disjoint, so the greedy
      -- scan below is exactly the regex semantics
      let nParams := (rest.takeWhile isParamByte).length
      let r1 := rest.drop nParams
      let nInter := (r1.takeWhile isInterByte).length
      match r1.drop nInter with
      | [] => none
      | d :: _ => if isFinalByte d then some (1 + nParams + nInter + 1) else none
    else if c = ']' then
      -- unreachable in practice: the close bracket (0x5D) lies inside the
      -- first alternative's class, which is tried first; kept faithful
      let nBody := (rest.takeWhile (fun x => ¬ (x = escChar ∨ x = belChar))).length
      match rest.drop nBody with
      | [] => none
      | d :: r3 =>
        if d = belChar then some (1 + nBody + 1)
        else
          match r3 with
          | e :: _ => if d = escChar ∧ e = '\\' then some (1 + nBody + 2) else none
          | [] => none
    else none

/-- Worker for `stripAnsi`, structurally recursive on a fuel bound that
dominates the input length (each step consumes at least one character,
so fuel equal to the length always suffices). -/
def stripAnsiFuel : Nat → Str → Str
  | 0, l => l
  | fuel + 1, l =>
    match l with
    | [] => []
    | c :: rest =>
      if c = escChar then
        match matchEscLen rest with
        | some n => stripAnsiFuel fuel (rest.drop n)
        | none => c :: stripAnsiFuel fuel rest
      else c :: stripAnsiFuel fuel rest

/-- `ANSI_ESCAPE_RE.sub("", text)`: remove all non-overlapping matches of
the escape-sequence regex, scanning left to right. -/
def stripAnsi (l : Str) : Str := stripAnsiFuel l.length l

/-- The last `n` elements of a list (everything a further element would
evict from a FIFO of capacity `n`). -/
def lastN (n : Nat) (l : List Str) : List Str := l.drop (l.length - n)

/-! ## OutputBuffer (`src/tame/session/output_buffer.py`)

The `collections.deque(maxlen=N)` holding complete lines is modelled as
a plain list together with the eviction discipline of `deque.append`:
when full, the oldest (leftmost) element is discarded. -/

structure OutputBuffer where
  /-- `deque.maxlen`. -/
  maxlen : Nat := 10000
  /-- the deque contents, oldest first (`self._lines`). -/
  lines : List Str := []
  /-- `self._partial` in the source: the retained tail with no trailing
  newline (renamed here because of a keyword clash). -/
  tailStr : Str := []
  /-- `self.total_lines_received`. -/
  totalLinesReceived : Nat := 0
  /-- `self.total_bytes_received` (`len(text)` counts characters). -/
  totalBytesReceived : Nat := 0

/-- `deque.append` with `maxlen`: append right, evicting from the left
when the capacity is exceeded. -/
def dequeAppend (n : Nat) (xs : List Str) (x : Str) : List Str :=
  lastN n (xs ++ [x])

/-- `OutputBuffer.append_data`. -/
def OutputBuffer.appendData (b : OutputBuffer) (text : Str) : OutputBuffer :=
  let combined := b.tailStr ++ text
  let parts := splitNl combined
  { b with
    totalBytesReceived := b.totalBytesReceived + text.length
    lines := parts.dropLast.foldl (dequeAppend b.maxlen) b.lines
    totalLinesReceived := b.totalLinesReceived + parts.dropLast.length
    tailStr := parts.getLastD [] }

/-- `OutputBuffer.get_lines`. -/
def OutputBuffer.getLines (b : OutputBuffer) : List Str := b.lines

/-- `OutputBuffer.get_all_text`. -/
def OutputBuffer.getAllText (b : OutputBuffer) : Str :=
  let pieces := b.lines
  if pieces ≠ [] ∨ b.tailStr ≠ [] then
    let text := joinNl pieces
    if pieces ≠ [] ∧ b.tailStr ≠ [] then text ++ '\n' :: b.tailStr
    else if b.tailStr ≠ [] then b.tailStr
    else text
  else []

/-- `OutputBuffer.clear`. -/
def OutputBuffer.clear (b : OutputBuffer) : OutputBuffer :=
  { b with lines := [], tailStr := [], totalLinesReceived := 0,
           totalBytesReceived := 0 }

/-- A fresh `OutputBuffer(maxlen=n)`. -/
def OutputBuffer.mk0 (n : Nat) : OutputBuffer := { maxlen := n }

/-! ### Splitting lemmas -/

/-- Glue a string onto the head of a field list (the way a retained
tail merges with the first field of the next chunk's split). -/
def glueHd (p : Str) : List Str → List Str
  | [] => [p]
  | h :: t => (p ++ h) :: t

theorem glueHd_ne_nil (p : Str) (l : List Str) : glueHd p l ≠ [] := by
  cases l <;> simp [glueHd]

theorem splitNl_cons_nl (rest : Str) : splitNl ('\n' :: rest) = [] :: splitNl rest := by
  simp [splitNl]

theorem splitNl_cons_other (c : Char) (rest : Str) (hc : c ≠ '\n') :
    splitNl (c :: rest) = glueHd [c] (splitNl rest) := by
  simp only [splitNl, if_neg hc]
  cases h : splitNl rest with
  | nil => exact absurd h (splitNl_ne_nil rest)
  | cons x xs => simp [glueHd]

theorem getLastD_cons_cons (x y : Str) (ys : List Str) (d : Str) :
    (x :: y :: ys).getLastD d = (y :: ys).getLastD d := by
  simp [List.getLastD_cons]

theorem splitNl_append (a b : Str) :
    splitNl (a ++ b) =
      (splitNl a).dropLast ++ glueHd ((splitNl a).getLastD []) (splitNl b) := by
  induction a with
  | nil =>
    show splitNl b = ([[]] : List Str).dropLast ++ glueHd (([[]] : List Str).getLastD []) (splitNl b)
    cases h : splitNl b with
    | nil => exact absurd h (splitNl_ne_nil b)
    | cons x xs => simp [glueHd]
  | cons c rest ih =>
    by_cases hc : c = '\n'
    · subst hc
      show splitNl ('\n' :: (rest ++ b)) = _
      rw [splitNl_cons_nl, splitNl_cons_nl, ih]
      cases h : splitNl rest with
      | nil => exact absurd h (splitNl_ne_nil rest)
      | cons x xs =>
        cases xs with
        | nil => simp
        | cons y ys => simp [getLastD_cons_cons]
    · show splitNl (c :: (rest ++ b)) = _
      rw [splitNl_cons_other c _ hc, splitNl_cons_other c _ hc, ih]
      cases h : splitNl rest with
      | nil => exact absurd h (splitNl_ne_nil rest)
      | cons x xs =>
        cases xs with
        | nil =>
          cases hb : splitNl b with
          | nil => exact absurd hb (splitNl_ne_nil b)
          | cons z zs => simp [glueHd]
        | cons y ys => simp [glueHd, getLastD_cons_cons]

/-- Every field produced by `splitNl` is newline-free; stated for the
last field, the only one the buffer retains. -/
theorem splitNl_getLastD_no_nl (l : Str) : '\n' ∉ (splitNl l).getLastD [] := by
  induction l with
  | nil => simp [splitNl]
  | cons c rest ih =>
    by_cases hc : c = '\n'
    · subst hc
      rw [splitNl_cons_nl]
      cases h : splitNl rest with
      | nil => exact absurd h (splitNl_ne_nil rest)
      | cons x xs =>
        rw [h] at ih
        simpa [List.getLastD_cons] using ih
    · rw [splitNl_cons_other c _ hc]
      cases h : splitNl rest with
      | nil => exact absurd h (splitNl_ne_nil rest)
      | cons x xs =>
        rw [h] at ih
        cases xs with
        | nil =>
          simp only [glueHd, List.getLastD_nil, List.getLastD_cons] at ih ⊢
          simp only [List.cons_append, List.nil_append, List.mem_cons, not_or]
          exact ⟨fun hx => hc hx.symm, by simpa using ih⟩
        | cons y ys => simpa [glueHd, getLastD_cons_cons] using ih

/-- A newline-free string splits into the single field it is. -/
theorem splitNl_no_nl (l : Str) (h : '\n' ∉ l) : splitNl l = [l] := by
  induction l with
  | nil => simp [splitNl]
  | cons c rest ih =>
    simp only [List.mem_cons, not_or] at h
    rw [splitNl_cons_other c _ (fun hc => h.1 hc.symm), ih h.2]
    simp [glueHd]

/-! ### FIFO eviction lemmas -/

theorem lastN_length_le (n : Nat) (l : List Str) : (lastN n l).length ≤ n := by
  simp [lastN]; omega

theorem lastN_of_length_le (n : Nat) (l : List Str) (h : l.length ≤ n) :
    lastN n l = l := by
  simp [lastN, Nat.sub_eq_zero_of_le h]

theorem lastN_append_lastN (n : Nat) (a b : List Str) :
    lastN n (lastN n a ++ b) = lastN n (a ++ b) := by
  by_cases h : a.length ≤ n
  · rw [lastN_of_length_le n a h]
  · have hlt : n < a.length := Nat.lt_of_not_le h
    have hsplit : (a ++ b).drop (a.length - n) = a.drop (a.length - n) ++ b :=
      List.drop_append_of_le_length (Nat.sub_le _ _)
    show lastN n ((a.drop (a.length - n)) ++ b) = lastN n (a ++ b)
    unfold lastN
    rw [← hsplit, List.drop_drop]
    congr 1
    simp only [List.length_append, List.length_drop]
    omega

theorem foldl_dequeAppend (n : Nat) (ls : List Str) :
    ∀ init : List Str, init.length ≤ n →
      ls.foldl (dequeAppend n) init = lastN n (init ++ ls) := by
  induction ls with
  | nil => intro init h; simp [lastN_of_length_le n init h]
  | cons l rest ih =>
    intro init h
    rw [List.foldl_cons, ih (dequeAppend n init l) (lastN_length_le _ _)]
    show lastN n (lastN n (init ++ [l]) ++ rest) = _
    rw [lastN_append_lastN, List.append_assoc]
    rfl

theorem dropLast_append_ne_nil {a b : List Str} (h : b ≠ []) :
    (a ++ b).dropLast = a ++ b.dropLast :=
  List.dropLast_append_of_ne_nil a h

theorem getLastD_append_ne_nil {a b : List Str} (h : b ≠ []) :
    (a ++ b).getLastD [] = b.getLastD [] := by
  rw [List.getLastD_eq_getLast?, List.getLastD_eq_getLast?,
    List.getLast?_append_of_ne_nil a h]

/-- One `append_data` step preserves the characterization of the buffer
contents in terms of the full accumulated text. -/
theorem appendData_invariant (b : OutputBuffer) (acc t : Str)
    (hl : b.lines = lastN b.maxlen ((splitNl acc).dropLast))
    (ht : b.tailStr = (splitNl acc).getLastD []) :
    (b.appendData t).lines = lastN b.maxlen ((splitNl (acc ++ t)).dropLast) ∧
    (b.appendData t).tailStr = (splitNl (acc ++ t)).getLastD [] := by
  have hnn : '\n' ∉ b.tailStr := ht ▸ splitNl_getLastD_no_nl acc
  have hsplit : splitNl (acc ++ t) =
      (splitNl acc).dropLast ++ splitNl (b.tailStr ++ t) := by
    have hg : splitNl (b.tailStr ++ t) = glueHd b.tailStr (splitNl t) := by
      rw [splitNl_append, splitNl_no_nl _ hnn]
      rfl
    rw [hg, splitNl_append, ht]
  have hne : splitNl (b.tailStr ++ t) ≠ [] := splitNl_ne_nil _
  constructor
  · show (splitNl (b.tailStr ++ t)).dropLast.foldl (dequeAppend b.maxlen) b.lines = _
    rw [foldl_dequeAppend _ _ b.lines (by rw [hl]; exact lastN_length_le _ _), hl,
      lastN_append_lastN, hsplit, dropLast_append_ne_nil hne]
  · show (splitNl (b.tailStr ++ t)).getLastD [] = _
    rw [hsplit, getLastD_append_ne_nil hne]

/-- The full accumulated text of a sequence of appends. -/
def accText (texts : List Str) : Str := texts.foldl (· ++ ·) []

/-- Folding a sequence of appends into a fresh buffer. -/
def foldAppend (n : Nat) (texts : List Str) : OutputBuffer :=
  texts.foldl OutputBuffer.appendData (OutputBuffer.mk0 n)

theorem foldAppend_characterization (n : Nat) (texts : List Str) :
    (foldAppend n texts).maxlen = n ∧
    (foldAppend n texts).lines = lastN n ((splitNl (accText texts)).dropLast) ∧
    (foldAppend n texts).tailStr = (splitNl (accText texts)).getLastD [] := by
  suffices h : ∀ (b : OutputBuffer) (acc : Str),
      b.maxlen = n →
      b.lines = lastN n ((splitNl acc).dropLast) →
      b.tailStr = (splitNl acc).getLastD [] →
      (texts.foldl OutputBuffer.appendData b).maxlen = n ∧
      (texts.foldl OutputBuffer.appendData b).lines =
        lastN n ((splitNl (texts.foldl (· ++ ·) acc)).dropLast) ∧
      (texts.foldl OutputBuffer.appendData b).tailStr =
        (splitNl (texts.foldl (· ++ ·) acc)).getLastD [] by
    exact h (OutputBuffer.mk0 n) [] rfl (by simp [OutputBuffer.mk0, splitNl, lastN])
      (by simp [OutputBuffer.mk0, splitNl])
  induction texts with
  | nil => intro b acc h1 h2 h3; exact ⟨h1, h2, h3⟩
  | cons t rest ih =>
    intro b acc h1 h2 h3
    have hstep := appendData_invariant b acc t (h1 ▸ h2) h3
    simp only [List.foldl_cons]
    exact ih (b.appendData t) (acc ++ t) (by simp [OutputBuffer.appendData, h1])
      (h1 ▸ hstep.1) hstep.2

/-- `joinNl` over a list extended by one element. -/
theorem joinNl_cons_cons (x y : Str) (ys : List Str) :
    joinNl (x :: y :: ys) = x ++ '\n' :: joinNl (y :: ys) := rfl

theorem joinNl_append_single (p : List Str) (t : Str) (h : p ≠ []) :
    joinNl (p ++ [t]) = joinNl p ++ '\n' :: t := by
  induction p with
  | nil => exact absurd rfl h
  | cons x xs ih =>
    cases xs with
    | nil => simp [joinNl]
    | cons y ys =>
      show joinNl (x :: (y :: ys ++ [t])) = _
      rw [List.cons_append, joinNl_cons_cons, ← List.cons_append,
        ih (by simp), joinNl_cons_cons]
      simp

/-- `get_all_text` equals the retained complete lines joined with
newlines, followed by the tail when non-empty. -/
theorem getAllText_characterization (b : OutputBuffer) :
    b.getAllText = joinNl (b.lines ++ if b.tailStr = [] then [] else [b.tailStr]) := by
  unfold OutputBuffer.getAllText
  by_cases hp : b.lines = []
  · by_cases htl : b.tailStr = []
    · simp [hp, htl, joinNl]
    · simp [hp, htl, joinNl]
  · by_cases htl : b.tailStr = []
    · simp [hp, htl]
    · rw [if_pos (Or.inl hp), if_pos ⟨hp, htl⟩, if_neg (fun hc : b.tailStr = [] => htl hc),
        joinNl_append_single _ _ hp]

/-- C3: for every sequence of texts appended to an `OutputBuffer` with
capacity `n`, `get_lines()` has length at most `n` and equals the last
`n` complete lines of the accumulated text split on newline (oldest
evicted first), and `get_all_text()` is the retained complete lines
joined with newlines followed by the partial tail. -/
theorem c3_outputBuffer_bounded_fifo (n : Nat) (texts : List Str) :
    (foldAppend n texts).getLines.length ≤ n ∧
    (foldAppend n texts).getLines = lastN n ((splitNl (accText texts)).dropLast) ∧
    (foldAppend n texts).tailStr = (splitNl (accText texts)).getLastD [] ∧
    (foldAppend n texts).getAllText =
      joinNl ((foldAppend n texts).getLines ++
        if (foldAppend n texts).tailStr = [] then []
        else [(foldAppend n texts).tailStr]) := by
  obtain ⟨h1, h2, h3⟩ := foldAppend_characterization n texts
  refine ⟨?_, h2, h3, ?_⟩
  · show (foldAppend n texts).lines.length ≤ n
    rw [h2]
    exact lastN_length_le _ _
  · exact getAllText_characterization _

/-- C8 counterexample: the counters are not monotonic over every
operation sequence — `clear` resets them, so a buffer that has received
a line sees `total_lines_received` decrease from 1 to 0 across `clear`. -/
theorem c8_counterexample_clear_resets :
    ((OutputBuffer.mk0 5).appendData ("a\n".toList)).totalLinesReceived = 1 ∧
    ((OutputBuffer.mk0 5).appendData ("a\n".toList)).clear.totalLinesReceived = 0 ∧
    ((OutputBuffer.mk0 5).appendData ("a\n".toList)).totalBytesReceived = 2 ∧
    ((OutputBuffer.mk0 5).appendData ("a\n".toList)).clear.totalBytesReceived = 0 := by
  refine ⟨?_, rfl, ?_, rfl⟩ <;> decide

/-- C8 (amended): `total_lines_received` and `total_bytes_received`
never decrease under `append_data` (and the read operations do not
touch them), while `clear` resets both to zero. -/
theorem c8_counters_monotone_except_clear (b : OutputBuffer) (t : Str) :
    b.totalLinesReceived ≤ (b.appendData t).totalLinesReceived ∧
    b.totalBytesReceived ≤ (b.appendData t).totalBytesReceived ∧
    b.clear.totalLinesReceived = 0 ∧
    b.clear.totalBytesReceived = 0 := by
  refine ⟨?_, ?_, rfl, rfl⟩ <;> simp [OutputBuffer.appendData]

/-! ## Dual-axis state model (`src/tame/session/state.py`) -/

/-- Lifecycle state of the underlying process. -/
inductive ProcessState
  | starting
  | running
  | paused
  | exited
deriving DecidableEq, Repr

/-- Whether the session needs user attention. -/
inductive AttentionState
  | none
  | needsInput
  | errorSeen
  | idle
deriving DecidableEq, Repr

/-- Combined display state derived from process plus attention. -/
inductive SessionState
  | created
  | starting
  | active
  | idle
  | waiting
  | paused
  | done
  | error
deriving DecidableEq, Repr

/-- `VALID_PROCESS_TRANSITIONS` membership (`is_valid_process_transition`). -/
def validProcessTransition : ProcessState → ProcessState → Bool
  | .starting, .running => true
  | .starting, .exited => true
  | .running, .paused => true
  | .running, .exited => true
  | .paused, .running => true
  | .paused, .exited => true
  | _, _ => false

/-- `VALID_ATTENTION_TRANSITIONS` membership (`is_valid_attention_transition`). -/
def validAttentionTransition : AttentionState → AttentionState → Bool
  | .none, .needsInput => true
  | .none, .errorSeen => true
  | .none, .idle => true
  | .needsInput, .none => true
  | .needsInput, .errorSeen => true
  | .errorSeen, .none => true
  | .errorSeen, .needsInput => true
  | .idle, .none => true
  | .idle, .needsInput => true
  | .idle, .errorSeen => true
  | _, _ => false

/-- `PRIORITY_ATTENTION_STATES` (bypass debounce). -/
def priorityAttention (a : AttentionState) : Bool :=
  a = .errorSeen ∨ a = .needsInput

/-- `PRIORITY_PROCESS_STATES` (bypass debounce). -/
def priorityProcess (p : ProcessState) : Bool :=
  p = .exited

/-- `compute_session_state`. -/
def computeSessionState (process : ProcessState) (attention : AttentionState) :
    SessionState :=
  match process with
  | .starting => .starting
  | .paused => .paused
  | .exited => if attention = .errorSeen then .error else .done
  | .running =>
    match attention with
    | .needsInput => .waiting
    | .errorSeen => .error
    | .idle => .idle
    | .none => .active

/-! ## Pattern matcher interface (`src/tame/session/pattern_matcher.py`)

`PatternMatcher` is constructed from configuration regexes; its `scan`
returns the category, pattern index, matched text and the scanned line.
The regex engine itself is configuration-dependent, so a session's
matcher is modelled as the function from a line to the optional
`(category, pattern_index, matched_text)` triple; `scan` then packages
the scanned line into the returned record exactly as the source does. -/

structure ScanHit where
  category : String
  patternIndex : Nat
  matchedText : Str
deriving DecidableEq, Repr

structure PatternMatch where
  category : String
  patternIndex : Nat
  matchedText : Str
  line : Str
deriving DecidableEq, Repr

/-- The matcher function type (`PatternMatcher.scan` minus the echoed line). -/
abbrev Matcher := Str → Option ScanHit

/-- `PatternMatcher.scan`: package a hit with the scanned line. -/
def scanLine (matcher : Matcher) (line : Str) : Option PatternMatch :=
  (matcher line).map fun h =>
    { category := h.category, patternIndex := h.patternIndex,
      matchedText := h.matchedText, line := line }

/-! ## PTY process (`src/tame/session/pty_process.py`)

Only the state the supervisor consults is modelled: whether `start` has
been run (master fd present), whether the child is alive, its exit
code, and whether an `os.write` on the master fd would raise `OSError`
(as it does for a dead pty). -/

inductive PtyError
  | runtimeError
  | osError
deriving DecidableEq, Repr

structure PTYProcess where
  /-- master fd present (`self._master_fd is not None`). -/
  started : Bool := true
  /-- `is_alive` (`self._process.poll() is None`). -/
  alive : Bool := true
  /-- `exit_code` (`self._process.poll()`). -/
  exitCode : Option Int := Option.none
  /-- whether `os.write(self._master_fd, ...)` raises `OSError`. -/
  writeRaises : Bool := false
deriving DecidableEq, Repr

/-- `PTYProcess.write`. -/
def PTYProcess.write (p : PTYProcess) (_data : Str) : Except PtyError Unit :=
  if ¬ p.started then .error .runtimeError
  else if p.writeRaises then .error .osError
  else .ok ()

/-! ## Session (`src/tame/session/session.py`)

Fields not consulted by any claim (timestamps, usage record, input
history, metadata, pid) are omitted. -/

structure Session where
  id : String
  name : String
  workingDir : String
  processState : ProcessState
  attentionState : AttentionState
  outputBuffer : OutputBuffer
  patternMatcher : Matcher
  exitCode : Option Int := Option.none
  ptyProcess : Option PTYProcess := Option.none
  profile : String := ""
  group : String := ""

/-- `Session.status` (derived display state). -/
def Session.status (s : Session) : SessionState :=
  computeSessionState s.processState s.attentionState

/-! ## Association lists (Python dicts keyed by session id) -/

def alGet {α : Type} (l : List (String × α)) (k : String) : Option α :=
  match l.find? (fun p => p.1 = k) with
  | some p => some p.2
  | Option.none => Option.none

def alSet {α : Type} (l : List (String × α)) (k : String) (v : α) :
    List (String × α) :=
  (k, v) :: l.filter (fun p => ¬ p.1 = k)

def alPop {α : Type} (l : List (String × α)) (k : String) : List (String × α) :=
  l.filter (fun p => ¬ p.1 = k)

theorem alGet_alSet_self {α : Type} (l : List (String × α)) (k : String) (v : α) :
    alGet (alSet l k v) k = some v := by
  simp [alGet, alSet]

theorem alGet_alPop_self {α : Type} (l : List (String × α)) (k : String) :
    alGet (alPop l k) k = Option.none := by
  unfold alGet alPop
  cases h : (l.filter (fun p => ¬ p.1 = k)).find? (fun p => p.1 = k) with
  | none => rfl
  | some p =>
    have hmem := List.mem_of_find?_eq_some h
    have hpred := List.find?_some h
    have := List.of_mem_filter hmem
    simp at hpred this
    exact absurd hpred this

theorem alGet_alSet_ne {α : Type} (l : List (String × α)) (k k' : String) (v : α)
    (h : k' ≠ k) : alGet (alSet l k v) k' = alGet l k' := by
  unfold alGet alSet
  rw [List.find?_cons_of_neg _ (by simpa using fun hc : k = k' => h hc.symm)]
  congr 1
  induction l with
  | nil => rfl
  | cons p rest ih =>
    by_cases hp : p.1 = k
    · have hp' : ¬ p.1 = k' := by rw [hp]; exact fun hc => h hc.symm
      rw [List.filter_cons_of_neg (by simp [hp]),
        List.find?_cons_of_neg _ (by simp [hp']), ih]
    · rw [List.filter_cons_of_pos (by simp [hp])]
      by_cases hp' : p.1 = k'
      · rw [List.find?_cons_of_pos _ (by simp [hp']),
          List.find?_cons_of_pos _ (by simp [hp'])]
      · rw [List.find?_cons_of_neg _ (by simp [hp']),
          List.find?_cons_of_neg _ (by simp [hp']), ih]

/-! ## SessionManager (`src/tame/session/manager.py`)

The per-session dictionaries of the supervisor are association lists,
timer handles are modelled by presence of a pending entry, and
`time.monotonic()` values (float seconds in the source) are integer
millisecond counts passed in by the caller, so that every configured
interval, including the 0.5 s debounce window, stays exact.  The
incremental UTF-8 decoder of a session is modelled by the text a final
flush would produce.  The `on_status_change` and `on_output` callbacks
are modelled as an emission list returned alongside the new state. -/

inductive Emit
  | output (sid : String) (text : Str)
  | statusChange (sid : String) (old new : SessionState) (matchedText : Str)
deriving DecidableEq, Repr

inductive MgrError
  | keyError
  | runtimeError
  | osError
deriving DecidableEq, Repr

structure Manager where
  /-- `self._sessions`. -/
  sessions : List (String × Session) := []
  /-- `self._scan_partials` (retained unterminated scan fragment). -/
  scanTails : List (String × Str) := []
  /-- `self._last_scanned_partial` (cache, issue 19). -/
  lastScannedTail : List (String × Str) := []
  /-- `self._weak_prompt_timers`: pending timer, value = captured line. -/
  weakPromptTimers : List (String × Str) := []
  /-- `self._idle_timers`: sids with a pending idle timer. -/
  idleTimers : List String := []
  /-- `self._debounce_until`. -/
  debounceUntil : List (String × Int) := []
  /-- `self._utf8_decoders`: the text a final flush would produce. -/
  utf8Pending : List (String × Str) := []
  /-- `self._loop is not None`. -/
  loopAttached : Bool := false
  /-- `idle_threshold_seconds`, in milliseconds (default 300 s). -/
  idleThreshold : Int := 300000
  /-- `idle_prompt_timeout`, in milliseconds (default 3 s). -/
  idlePromptTimeout : Int := 3000
  /-- `state_debounce_ms` (default 500). -/
  stateDebounceMs : Int := 500

/-- `self._get`: lookup raising `KeyError` when absent. -/
def mget (m : Manager) (sid : String) : Except MgrError Session :=
  match alGet m.sessions sid with
  | some s => .ok s
  | Option.none => .error .keyError

def msetSession (m : Manager) (sid : String) (s : Session) : Manager :=
  { m with sessions := alSet m.sessions sid s }

def updateSession (m : Manager) (sid : String) (f : Session → Session) : Manager :=
  match alGet m.sessions sid with
  | some s => msetSession m sid (f s)
  | Option.none => m

/-- `self._is_debounced`. -/
def isDebounced (m : Manager) (sid : String) (now : Int) : Bool :=
  let deadline := (alGet m.debounceUntil sid).getD 0
  if deadline ≤ 0 then false else now < deadline

/-- `self._stamp_debounce`. -/
def stampDebounce (m : Manager) (sid : String) (now : Int) : Manager :=
  if m.stateDebounceMs > 0 then
    { m with debounceUntil := alSet m.debounceUntil sid (now + m.stateDebounceMs) }
  else m

/-- `self._set_process_state`.  The session argument of the source is
the aliased dict entry, so the update is written back through the
session table. -/
def setProcessState (m : Manager) (sid : String) (newPs : ProcessState)
    (matchedText : Str) (now : Int) : Manager × List Emit :=
  match alGet m.sessions sid with
  | Option.none => (m, [])
  | some session =>
    if ¬ validProcessTransition session.processState newPs then
      (m, [])  -- log.warning: invalid transition, ignored
    else if ¬ priorityProcess newPs ∧ isDebounced m sid now then
      (m, [])  -- debounced
    else
      let oldStatus := session.status
      let session' := { session with processState := newPs }
      let newStatus := session'.status
      let m' := msetSession m sid session'
      if oldStatus ≠ newStatus then
        (stampDebounce m' sid now, [.statusChange sid oldStatus newStatus matchedText])
      else (m', [])

/-- `self._set_attention_state`. -/
def setAttentionState (m : Manager) (sid : String) (newAs : AttentionState)
    (matchedText : Str) (now : Int) : Manager × List Emit :=
  match alGet m.sessions sid with
  | Option.none => (m, [])
  | some session =>
    if ¬ validAttentionTransition session.attentionState newAs then
      (m, [])  -- log.warning: invalid transition, ignored
    else if ¬ priorityAttention newAs ∧ isDebounced m sid now then
      (m, [])  -- debounced
    else
      let oldStatus := session.status
      let session' := { session with attentionState := newAs }
      let newStatus := session'.status
      let m' := msetSession m sid session'
      if oldStatus ≠ newStatus then
        (stampDebounce m' sid now, [.statusChange sid oldStatus newStatus matchedText])
      else (m', [])

/-- `self._cancel_weak_prompt_timer`. -/
def cancelWeakPromptTimer (m : Manager) (sid : String) : Manager :=
  { m with weakPromptTimers := alPop m.weakPromptTimers sid }

/-- `self._cancel_idle_timer`. -/
def cancelIdleTimer (m : Manager) (sid : String) : Manager :=
  { m with idleTimers := m.idleTimers.filter (fun x => ¬ x = sid) }

/-- `self._reset_idle_timer`. -/
def resetIdleTimer (m : Manager) (sid : String) : Manager :=
  let m1 := cancelIdleTimer m sid
  if ¬ m1.loopAttached then m1
  else if m1.idleThreshold ≤ 0 then m1
  else { m1 with idleTimers := sid :: m1.idleTimers }

/-- `self._schedule_weak_prompt`. -/
def scheduleWeakPrompt (m : Manager) (sid : String) (matchedLine : Str)
    (now : Int) : Manager × List Emit :=
  let m1 := cancelWeakPromptTimer m sid
  if ¬ m1.loopAttached then
    -- no event loop: fire immediately (unit-test fallback)
    match alGet m1.sessions sid with
    | some _ => setAttentionState m1 sid .needsInput matchedLine now
    | Option.none => (m1, [])
  else
    ({ m1 with weakPromptTimers := alSet m1.weakPromptTimers sid matchedLine }, [])

/-! ### The per-chunk classification pipeline (`_process_output_text`) -/

/-- One step of the per-line last-match fold: the accumulator is the
pair (last attention-class match, last process-class match), each as
`(category, stripped line)`. -/
def scanStep (matcher : Matcher)
    (acc : Option (String × Str) × Option (String × Str)) (line : Str) :
    Option (String × Str) × Option (String × Str) :=
  if line = [] then acc
  else
    match scanLine matcher line with
    | Option.none => acc
    | some pm =>
      if pm.category = "error" ∨ pm.category = "prompt" ∨
          pm.category = "weak_prompt" then
        (some (pm.category, pyStrip line), acc.2)
      else if pm.category = "completion" then
        (acc.1, some (pm.category, pyStrip line))
      else acc  -- progress and other categories: informational only

def scanMatches (matcher : Matcher) (ls : List Str) :
    Option (String × Str) × Option (String × Str) :=
  ls.foldl (scanStep matcher) (Option.none, Option.none)

/-- Retained scan fragment plus the ANSI-stripped chunk. -/
def chunkCombined (m : Manager) (sid : String) (text : Str) : Str :=
  (alGet m.scanTails sid).getD [] ++ stripAnsi text

def chunkParts (m : Manager) (sid : String) (text : Str) : List Str :=
  splitNl (chunkCombined m sid text)

def chunkCompleteLines (m : Manager) (sid : String) (text : Str) : List Str :=
  (chunkParts m sid text).dropLast

def chunkNewTail (m : Manager) (sid : String) (text : Str) : Str :=
  (chunkParts m sid text).getLastD []

/-- The chunk's winning attention-class match: the last attention match
over the complete lines, possibly overridden by a prompt or weak-prompt
match on the fresh unterminated tail (scanned only when it differs from
the cached previously-scanned tail). -/
def chunkLastAttention (m : Manager) (sid : String) (text : Str)
    (matcher : Matcher) : Option (String × Str) :=
  let la := (scanMatches matcher (chunkCompleteLines m sid text)).1
  let tl := chunkNewTail m sid text
  if tl ≠ [] ∧ alGet m.lastScannedTail sid ≠ some tl then
    match scanLine matcher tl with
    | some pm =>
      if pm.category = "prompt" ∨ pm.category = "weak_prompt" then
        some (pm.category, pyStrip tl)
      else la
    | Option.none => la
  else la

/-- The cache write accompanying the tail scan. -/
def chunkUpdateLastScanned (m : Manager) (sid : String) (tl : Str) : Manager :=
  if tl ≠ [] ∧ alGet m.lastScannedTail sid ≠ some tl then
    { m with lastScannedTail := alSet m.lastScannedTail sid tl }
  else m

/-- Apply the winning attention match (source lines 333-340). -/
def applyAttention (m : Manager) (sid : String)
    (la : Option (String × Str)) (now : Int) : Manager × List Emit :=
  match la with
  | Option.none => (m, [])
  | some (cat, txt) =>
    if cat = "error" then setAttentionState m sid .errorSeen txt now
    else if cat = "prompt" then setAttentionState m sid .needsInput txt now
    else if cat = "weak_prompt" then scheduleWeakPrompt m sid txt now
    else (m, [])

/-- Apply the winning process match (source lines 341-343). -/
def applyProcess (m : Manager) (sid : String)
    (lp : Option (String × Str)) (now : Int) : Manager × List Emit :=
  match lp with
  | some (_, txt) => setProcessState m sid .exited txt now
  | Option.none => (m, [])

/-- `self._process_output_text` (source lines 281-348; the
`last_activity` timestamp and the usage scan of lines 346-348, which
touch no state any claim mentions, are not modelled). -/
def processOutputText (m : Manager) (sid : String) (text : Str) (now : Int) :
    Manager × List Emit :=
  match alGet m.sessions sid with
  | Option.none => (m, [])  -- callers always pass an existing session
  | some s0 =>
    let m1 := msetSession m sid
      { s0 with outputBuffer := s0.outputBuffer.appendData text }
    let m2 := resetIdleTimer m1 sid
    -- new output clears IDLE attention
    let me1 :=
      if s0.attentionState = .idle then setAttentionState m2 sid .none [] now
      else (m2, [])
    let m4 := cancelWeakPromptTimer me1.1 sid
    let e2 := [Emit.output sid text]
    -- scan state below reads from `m`: the fields involved
    -- (scanTails, lastScannedTail, the session's matcher) are unchanged
    -- by the updates above
    let m5 := { m4 with scanTails := alSet m4.scanTails sid (chunkNewTail m sid text) }
    let la := chunkLastAttention m sid text s0.patternMatcher
    let lp := (scanMatches s0.patternMatcher (chunkCompleteLines m sid text)).2
    let m6 := chunkUpdateLastScanned m5 sid (chunkNewTail m sid text)
    let me3 := applyAttention m6 sid la now
    let me4 := applyProcess me3.1 sid lp now
    (me4.1, me1.2 ++ e2 ++ me3.2 ++ me4.2)

/-- The EOF branch of `self._on_session_output` (source lines 252-264):
flush the incremental decoder, cancel the weak-prompt timer, drop the
scan fragment, record the exit code, raise ERROR_SEEN for a non-zero
exit, and move the process to EXITED. -/
def onSessionOutputEOF (m : Manager) (sid : String) (now : Int) :
    Manager × List Emit :=
  match alGet m.sessions sid with
  | Option.none => (m, [])
  | some _ =>
    let flushedTail := (alGet m.utf8Pending sid).getD []
    let m1 := { m with utf8Pending := alPop m.utf8Pending sid }
    let me0 :=
      if flushedTail ≠ [] then processOutputText m1 sid flushedTail now
      else (m1, [])
    let m3 := cancelWeakPromptTimer me0.1 sid
    let m4 := { m3 with scanTails := alPop m3.scanTails sid }
    let exitCode :=
      match (alGet m4.sessions sid).bind Session.ptyProcess with
      | some p => p.exitCode
      | Option.none => Option.none
    let m5 := updateSession m4 sid (fun s => { s with exitCode := exitCode })
    let me1 :=
      if exitCode ≠ some 0 then setAttentionState m5 sid .errorSeen [] now
      else (m5, [])
    let me2 := setProcessState me1.1 sid .exited [] now
    (me2.1, me0.2 ++ me1.2 ++ me2.2)

/-! ### CRUD and control operations -/

/-- `create_session` (source lines 94-144).  The uuid, the spawned
`PTYProcess` and the merged per-session pattern set are produced by
external effects (uuid4, fork/exec, configuration) and are therefore
parameters here.  The source assigns `ProcessState.RUNNING` to the new
session. -/
def createSession (m : Manager) (name workingDir : String) (sid : String)
    (pty : PTYProcess) (matcher : Matcher) (profile : String) :
    Manager × Session :=
  let session : Session :=
    { id := sid, name := name, workingDir := workingDir,
      processState := .running, attentionState := .none,
      outputBuffer := {}, patternMatcher := matcher,
      ptyProcess := some pty, profile := profile }
  let m1 := { m with sessions := alSet m.sessions sid session }
  (resetIdleTimer m1 sid, session)

/-- `get_session`. -/
def getSession (m : Manager) (sid : String) : Except MgrError Session :=
  mget m sid

/-- `rename_session`. -/
def renameSession (m : Manager) (sid : String) (newName : String) :
    Except MgrError Manager := do
  let s ← mget m sid
  pure (msetSession m sid { s with name := newName })

/-- `set_session_group`. -/
def setSessionGroup (m : Manager) (sid : String) (group : String) :
    Except MgrError Manager := do
  let s ← mget m sid
  pure (msetSession m sid { s with group := group })

/-- `delete_session` (close the pty, drop every per-session entry). -/
def deleteSession (m : Manager) (sid : String) : Except MgrError Manager := do
  let _ ← mget m sid
  pure { m with
    scanTails := alPop m.scanTails sid,
    lastScannedTail := alPop m.lastScannedTail sid,
    weakPromptTimers := alPop m.weakPromptTimers sid,
    idleTimers := m.idleTimers.filter (fun x => ¬ x = sid),
    debounceUntil := alPop m.debounceUntil sid,
    utf8Pending := alPop m.utf8Pending sid,
    sessions := alPop m.sessions sid }

/-- `send_input` (source lines 226-239): write, then refresh activity
and clear NEEDS_INPUT, ERROR_SEEN or IDLE attention.  A write failure
propagates before any state is touched. -/
def sendInput (m : Manager) (sid : String) (text : Str) (now : Int) :
    Except MgrError (Manager × List Emit) := do
  let session ← mget m sid
  match session.ptyProcess with
  | Option.none => throw .runtimeError
  | some pty =>
    match pty.write text with
    | .error .runtimeError => throw .runtimeError
    | .error .osError => throw .osError
    | .ok _ =>
      let m1 := resetIdleTimer m sid
      if session.attentionState = .needsInput ∨
          session.attentionState = .errorSeen ∨
          session.attentionState = .idle then
        pure (setAttentionState m1 sid .none [] now)
      else pure (m1, [])

/-- `resize_session` (the winsize ioctl and SIGWINCH touch no modelled
state). -/
def resizeSession (m : Manager) (sid : String) (_rows _cols : Nat) :
    Except MgrError (Manager × List Emit) := do
  let session ← mget m sid
  match session.ptyProcess with
  | Option.none => throw .runtimeError
  | some _ => pure (m, [])

/-- `pause_session`. -/
def pauseSession (m : Manager) (sid : String) (now : Int) :
    Except MgrError (Manager × List Emit) := do
  let session ← mget m sid
  match session.ptyProcess with
  | some p =>
    if p.alive then pure (setProcessState m sid .paused [] now)
    else pure (m, [])
  | Option.none => pure (m, [])

/-- `resume_session`. -/
def resumeSession (m : Manager) (sid : String) (now : Int) :
    Except MgrError (Manager × List Emit) := do
  let session ← mget m sid
  match session.ptyProcess with
  | some p =>
    if p.alive then pure (setProcessState m sid .running [] now)
    else pure (m, [])
  | Option.none => pure (m, [])

/-! ### Snapshot scan (`scan_pane_content`, source lines 429-471) -/

/-- The reversed-iteration search for the final non-blank line. -/
def findLastNonBlank (lines : List Str) : Option Str :=
  lines.reverse.find? (fun l => ¬ pyStrip l = [])

/-- One step of the snapshot fold: skip blank lines, otherwise keep the
most recent match of any category. -/
def snapStep (matcher : Matcher) (acc : Option PatternMatch) (line : Str) :
    Option PatternMatch :=
  if pyStrip line = [] then acc
  else
    match scanLine matcher line with
    | some pm => some pm
    | Option.none => acc

def snapScan (matcher : Matcher) (ls : List Str) : Option PatternMatch :=
  ls.foldl (snapStep matcher) Option.none

/-- The snapshot's overall last match: the fold over all lines, with
the final-line unterminated-prompt check applied on top (source lines
440-456). -/
def snapFinal (M : Matcher) (lines : List Str) : Option PatternMatch :=
  let lastMatch := snapScan M lines
  match findLastNonBlank lines with
  | some line =>
    match scanLine M (pyStrip line) with
    | some pm => if pm.category = "prompt" then some pm else lastMatch
    | Option.none => lastMatch
  | Option.none => lastMatch

/-- The single transition applied by the snapshot scan (source lines
458-471). -/
def snapApply (m : Manager) (sid : String) (lm : Option PatternMatch)
    (now : Int) : Manager × List Emit :=
  match lm with
  | Option.none => (m, [])
  | some pm =>
    if pm.category = "error" then
      setAttentionState m sid .errorSeen (pyStrip pm.line) now
    else if pm.category = "prompt" then
      setAttentionState m sid .needsInput (pyStrip pm.line) now
    else if pm.category = "completion" then
      setProcessState m sid .exited (pyStrip pm.line) now
    else (m, [])

/-- `scan_pane_content`: classify a captured pane text without touching
the output buffer and apply the single resulting transition. -/
def scanPaneContent (m : Manager) (sid : String) (text : Str) (now : Int) :
    Except MgrError (Manager × List Emit) := do
  let session ← mget m sid
  pure (snapApply m sid
    (snapFinal session.patternMatcher (splitNl (stripAnsi text))) now)

/-- The key-forwarding path of the application (`app.py` lines 544-548):
`send_input` wrapped in a handler that catches `OSError`, logs at debug
and ignores it.  The boolean reports whether the debug log fired. -/
def handleSendInput (m : Manager) (sid : String) (text : Str) (now : Int) :
    Except MgrError (Manager × List Emit × Bool) :=
  match sendInput m sid text now with
  | .ok (m', es) => .ok (m', es, false)
  | .error .osError => .ok (m, [], true)  -- log.debug: send to dead session ignored
  | .error e => .error e

/-! ### Projection and preservation lemmas -/

theorem resetIdleTimer_sessions (m : Manager) (sid : String) :
    (resetIdleTimer m sid).sessions = m.sessions := by
  simp only [resetIdleTimer, cancelIdleTimer]
  split_ifs <;> rfl

theorem resetIdleTimer_scanTails (m : Manager) (sid : String) :
    (resetIdleTimer m sid).scanTails = m.scanTails := by
  simp only [resetIdleTimer, cancelIdleTimer]
  split_ifs <;> rfl

theorem resetIdleTimer_debounceUntil (m : Manager) (sid : String) :
    (resetIdleTimer m sid).debounceUntil = m.debounceUntil := by
  simp only [resetIdleTimer, cancelIdleTimer]
  split_ifs <;> rfl

theorem stampDebounce_sessions (m : Manager) (sid : String) (now : Int) :
    (stampDebounce m sid now).sessions = m.sessions := by
  simp only [stampDebounce]
  split_ifs <;> rfl

/-- `_set_attention_state`, rejected transition: no state change, no
emission. -/
theorem setAttentionState_invalid (m : Manager) (sid : String)
    (a : AttentionState) (txt : Str) (now : Int) (s : Session)
    (hs : alGet m.sessions sid = some s)
    (hv : validAttentionTransition s.attentionState a = false) :
    setAttentionState m sid a txt now = (m, []) := by
  unfold setAttentionState
  rw [hs]
  dsimp only
  rw [if_pos (by simp [hv])]

/-- `_set_attention_state`, suppressed by the debounce window. -/
theorem setAttentionState_debounced (m : Manager) (sid : String)
    (a : AttentionState) (txt : Str) (now : Int) (s : Session)
    (hs : alGet m.sessions sid = some s)
    (hv : validAttentionTransition s.attentionState a = true)
    (hp : priorityAttention a = false)
    (hd : isDebounced m sid now = true) :
    setAttentionState m sid a txt now = (m, []) := by
  unfold setAttentionState
  rw [hs]
  dsimp only
  rw [if_neg (by simp [hv]), if_pos (by simp [hp, hd])]

/-- `_set_attention_state`, accepted transition: the session is written
back with the new attention state; a status-change callback is emitted
exactly when the derived status changed. -/
theorem setAttentionState_pass (m : Manager) (sid : String)
    (a : AttentionState) (txt : Str) (now : Int) (s : Session)
    (hs : alGet m.sessions sid = some s)
    (hv : validAttentionTransition s.attentionState a = true)
    (hgate : priorityAttention a = true ∨ isDebounced m sid now = false) :
    (setAttentionState m sid a txt now).1.sessions =
      alSet m.sessions sid { s with attentionState := a } ∧
    (setAttentionState m sid a txt now).2 =
      (if s.status ≠ ({ s with attentionState := a } : Session).status then
        [Emit.statusChange sid s.status
          ({ s with attentionState := a } : Session).status txt]
      else []) := by
  unfold setAttentionState
  rw [hs]
  dsimp only
  rw [if_neg (by simp [hv]),
    if_neg (by rcases hgate with h | h <;> simp [h])]
  by_cases hst : s.status ≠ ({ s with attentionState := a } : Session).status
  · rw [if_pos hst, if_pos hst]
    exact ⟨stampDebounce_sessions _ _ _, rfl⟩
  · rw [if_neg hst, if_neg hst]
    exact ⟨rfl, rfl⟩

/-- `_set_process_state`, rejected transition. -/
theorem setProcessState_invalid (m : Manager) (sid : String)
    (p : ProcessState) (txt : Str) (now : Int) (s : Session)
    (hs : alGet m.sessions sid = some s)
    (hv : validProcessTransition s.processState p = false) :
    setProcessState m sid p txt now = (m, []) := by
  unfold setProcessState
  rw [hs]
  dsimp only
  rw [if_pos (by simp [hv])]

/-- `_set_process_state`, suppressed by the debounce window. -/
theorem setProcessState_debounced (m : Manager) (sid : String)
    (p : ProcessState) (txt : Str) (now : Int) (s : Session)
    (hs : alGet m.sessions sid = some s)
    (hv : validProcessTransition s.processState p = true)
    (hp : priorityProcess p = false)
    (hd : isDebounced m sid now = true) :
    setProcessState m sid p txt now = (m, []) := by
  unfold setProcessState
  rw [hs]
  dsimp only
  rw [if_neg (by simp [hv]), if_pos (by simp [hp, hd])]

/-- `_set_process_state`, accepted transition. -/
theorem setProcessState_pass (m : Manager) (sid : String)
    (p : ProcessState) (txt : Str) (now : Int) (s : Session)
    (hs : alGet m.sessions sid = some s)
    (hv : validProcessTransition s.processState p = true)
    (hgate : priorityProcess p = true ∨ isDebounced m sid now = false) :
    (setProcessState m sid p txt now).1.sessions =
      alSet m.sessions sid { s with processState := p } ∧
    (setProcessState m sid p txt now).2 =
      (if s.status ≠ ({ s with processState := p } : Session).status then
        [Emit.statusChange sid s.status
          ({ s with processState := p } : Session).status txt]
      else []) := by
  unfold setProcessState
  rw [hs]
  dsimp only
  rw [if_neg (by simp [hv]),
    if_neg (by rcases hgate with h | h <;> simp [h])]
  by_cases hst : s.status ≠ ({ s with processState := p } : Session).status
  · rw [if_pos hst, if_pos hst]
    exact ⟨stampDebounce_sessions _ _ _, rfl⟩
  · rw [if_neg hst, if_neg hst]
    exact ⟨rfl, rfl⟩

/-- `_set_attention_state` never touches a missing session. -/
theorem setAttentionState_missing (m : Manager) (sid : String) (a : AttentionState)
    (txt : Str) (now : Int) (h : alGet m.sessions sid = Option.none) :
    setAttentionState m sid a txt now = (m, []) := by
  unfold setAttentionState
  rw [h]

/-- Setting `NEEDS_INPUT` always lands on `NEEDS_INPUT`: the transition
is valid from NONE, ERROR_SEEN and IDLE, bypasses debounce (priority),
and the only state it is invalid from is NEEDS_INPUT itself. -/
theorem setAttentionState_needsInput_final (m : Manager) (sid : String)
    (txt : Str) (now : Int) (s : Session) (hs : alGet m.sessions sid = some s) :
    (alGet (setAttentionState m sid .needsInput txt now).1.sessions sid).map
      Session.attentionState = some AttentionState.needsInput := by
  cases ha : s.attentionState
  case needsInput =>
    rw [setAttentionState_invalid m sid _ txt now s hs (by rw [ha]; rfl), hs]
    simp [ha]
  all_goals
    rw [(setAttentionState_pass m sid .needsInput txt now s hs
        (by rw [ha]; rfl) (Or.inl rfl)).1, alGet_alSet_self]
    rfl

/-- Setting `ERROR_SEEN` always lands on `ERROR_SEEN`. -/
theorem setAttentionState_errorSeen_final (m : Manager) (sid : String)
    (txt : Str) (now : Int) (s : Session) (hs : alGet m.sessions sid = some s) :
    (alGet (setAttentionState m sid .errorSeen txt now).1.sessions sid).map
      Session.attentionState = some AttentionState.errorSeen := by
  cases ha : s.attentionState
  case errorSeen =>
    rw [setAttentionState_invalid m sid _ txt now s hs (by rw [ha]; rfl), hs]
    simp [ha]
  all_goals
    rw [(setAttentionState_pass m sid .errorSeen txt now s hs
        (by rw [ha]; rfl) (Or.inl rfl)).1, alGet_alSet_self]
    rfl

/-- Setting `EXITED` always lands on `EXITED` and leaves attention
untouched. -/
theorem setProcessState_exited_final (m : Manager) (sid : String)
    (txt : Str) (now : Int) (s : Session) (hs : alGet m.sessions sid = some s) :
    (alGet (setProcessState m sid .exited txt now).1.sessions sid).map
      (fun x => (x.processState, x.attentionState)) =
      some (ProcessState.exited, s.attentionState) := by
  cases hp : s.processState
  case exited =>
    rw [setProcessState_invalid m sid _ txt now s hs (by rw [hp]; rfl), hs]
    simp [hp]
  all_goals
    rw [(setProcessState_pass m sid .exited txt now s hs
        (by rw [hp]; rfl) (Or.inl rfl)).1, alGet_alSet_self]
    rfl

/-- `_set_attention_state` leaves every session field but the attention
state intact (including when the transition is rejected). -/
theorem setAttentionState_session_shape (m : Manager) (sid : String)
    (a : AttentionState) (txt : Str) (now : Int) (s : Session)
    (hs : alGet m.sessions sid = some s) :
    ∃ a', alGet (setAttentionState m sid a txt now).1.sessions sid =
        some { s with attentionState := a' } ∧
      (a' = a ∨ a' = s.attentionState) := by
  by_cases hv : validAttentionTransition s.attentionState a = true
  · by_cases hgate : priorityAttention a = true ∨ isDebounced m sid now = false
    · exact ⟨a, by
        rw [(setAttentionState_pass m sid a txt now s hs hv hgate).1]
        exact alGet_alSet_self _ _ _, Or.inl rfl⟩
    · push_neg at hgate
      rw [setAttentionState_debounced m sid a txt now s hs hv
        (by simpa using hgate.1) (by simpa using hgate.2)]
      exact ⟨s.attentionState, hs, Or.inr rfl⟩
  · rw [setAttentionState_invalid m sid a txt now s hs (by simpa using hv)]
    exact ⟨s.attentionState, hs, Or.inr rfl⟩

/-- `_set_process_state` leaves every session field but the process
state intact. -/
theorem setProcessState_session_shape (m : Manager) (sid : String)
    (p : ProcessState) (txt : Str) (now : Int) (s : Session)
    (hs : alGet m.sessions sid = some s) :
    ∃ p', alGet (setProcessState m sid p txt now).1.sessions sid =
        some { s with processState := p' } ∧
      (p' = p ∨ p' = s.processState) := by
  by_cases hv : validProcessTransition s.processState p = true
  · by_cases hgate : priorityProcess p = true ∨ isDebounced m sid now = false
    · exact ⟨p, by
        rw [(setProcessState_pass m sid p txt now s hs hv hgate).1]
        exact alGet_alSet_self _ _ _, Or.inl rfl⟩
    · push_neg at hgate
      rw [setProcessState_debounced m sid p txt now s hs hv
        (by simpa using hgate.1) (by simpa using hgate.2)]
      exact ⟨s.processState, hs, Or.inr rfl⟩
  · rw [setProcessState_invalid m sid p txt now s hs (by simpa using hv)]
    exact ⟨s.processState, hs, Or.inr rfl⟩

theorem stampDebounce_scanTails (m : Manager) (sid : String) (now : Int) :
    (stampDebounce m sid now).scanTails = m.scanTails := by
  simp only [stampDebounce]
  split_ifs <;> rfl

theorem stampDebounce_weakPromptTimers (m : Manager) (sid : String) (now : Int) :
    (stampDebounce m sid now).weakPromptTimers = m.weakPromptTimers := by
  simp only [stampDebounce]
  split_ifs <;> rfl

theorem stampDebounce_idleTimers (m : Manager) (sid : String) (now : Int) :
    (stampDebounce m sid now).idleTimers = m.idleTimers := by
  simp only [stampDebounce]
  split_ifs <;> rfl

/-- The state setters touch only the session table and the debounce
stamps: scan tails, weak-prompt timers and idle timers pass through. -/
theorem setAttentionState_other_fields (m : Manager) (sid : String)
    (a : AttentionState) (txt : Str) (now : Int) :
    (setAttentionState m sid a txt now).1.scanTails = m.scanTails ∧
    (setAttentionState m sid a txt now).1.weakPromptTimers = m.weakPromptTimers ∧
    (setAttentionState m sid a txt now).1.idleTimers = m.idleTimers := by
  unfold setAttentionState
  cases alGet m.sessions sid with
  | none => exact ⟨rfl, rfl, rfl⟩
  | some s =>
    dsimp only
    split
    · exact ⟨rfl, rfl, rfl⟩
    · split
      · exact ⟨rfl, rfl, rfl⟩
      · split
        · exact ⟨stampDebounce_scanTails _ _ _, stampDebounce_weakPromptTimers _ _ _,
            stampDebounce_idleTimers _ _ _⟩
        · exact ⟨rfl, rfl, rfl⟩

theorem setProcessState_other_fields (m : Manager) (sid : String)
    (p : ProcessState) (txt : Str) (now : Int) :
    (setProcessState m sid p txt now).1.scanTails = m.scanTails ∧
    (setProcessState m sid p txt now).1.weakPromptTimers = m.weakPromptTimers ∧
    (setProcessState m sid p txt now).1.idleTimers = m.idleTimers := by
  unfold setProcessState
  cases alGet m.sessions sid with
  | none => exact ⟨rfl, rfl, rfl⟩
  | some s =>
    dsimp only
    split
    · exact ⟨rfl, rfl, rfl⟩
    · split
      · exact ⟨rfl, rfl, rfl⟩
      · split
        · exact ⟨stampDebounce_scanTails _ _ _, stampDebounce_weakPromptTimers _ _ _,
            stampDebounce_idleTimers _ _ _⟩
        · exact ⟨rfl, rfl, rfl⟩

/-- `_set_process_state` preserves each session's attention state. -/
theorem setProcessState_attention (m : Manager) (sid : String) (p : ProcessState)
    (txt : Str) (now : Int) :
    (alGet (setProcessState m sid p txt now).1.sessions sid).map
        Session.attentionState =
      (alGet m.sessions sid).map Session.attentionState := by
  cases hs : alGet m.sessions sid with
  | none =>
    unfold setProcessState
    rw [hs]
    dsimp only
    rw [hs]
  | some s =>
    by_cases hv : validProcessTransition s.processState p = true
    · by_cases hgate : priorityProcess p = true ∨ isDebounced m sid now = false
      · rw [(setProcessState_pass m sid p txt now s hs hv hgate).1, alGet_alSet_self]
        rfl
      · push_neg at hgate
        rw [setProcessState_debounced m sid p txt now s hs hv
          (by simpa using hgate.1) (by simpa using hgate.2), hs]
    · rw [setProcessState_invalid m sid p txt now s hs (by simpa using hv), hs]

theorem except_bind_error {α β : Type} (e : MgrError)
    (f : α → Except MgrError β) :
    (Except.error e >>= f : Except MgrError β) = Except.error e := rfl

theorem except_throw_eq (e : MgrError) {β : Type} :
    (throw e : Except MgrError β) = Except.error e := rfl

theorem except_bind_ok {α β : Type} (a : α) (f : α → Except MgrError β) :
    (Except.ok a >>= f : Except MgrError β) = f a := rfl

/-! ### Concrete fixtures for witnesses and counterexamples

A `PatternMatcher` built from metacharacter-free regexes performs plain
substring search per category in the fixed `SCAN_ORDER` priority; the
fixture below realises such an instance with one literal pattern in
each of the `error`, `prompt` and `completion` categories (all present
in the default configuration's pattern syntax). -/

/-- Does `l` start with `pat`? -/
def strStarts : Str → Str → Bool
  | _, [] => true
  | [], _ :: _ => false
  | c :: cs, p :: ps => c = p && strStarts cs ps

/-- Does `l` contain `pat` as a contiguous substring (`re.search` with a
literal pattern)? -/
def strContains (l pat : Str) : Bool :=
  match l with
  | [] => strStarts [] pat
  | _ :: rest => strStarts l pat || strContains rest pat

def demoMatcher : Matcher := fun line =>
  if strContains line ("Error:".toList) then
    some { category := "error", patternIndex := 0, matchedText := "Error:".toList }
  else if strContains line ("[y/n]".toList) then
    some { category := "prompt", patternIndex := 0, matchedText := "[y/n]".toList }
  else if strContains line ("Task completed".toList) then
    some { category := "completion", patternIndex := 0,
           matchedText := "Task completed".toList }
  else Option.none

def demoSession : Session :=
  { id := "s1", name := "s1", workingDir := ".",
    processState := .running, attentionState := .none,
    outputBuffer := {}, patternMatcher := demoMatcher }

/-- A manager owning only the fixture session. -/
def demoManager : Manager := { sessions := [("s1", demoSession)] }

/-- A pty whose child is dead and whose master-side write raises
`OSError` (EIO), with the master fd still open. -/
def deadPty : PTYProcess :=
  { started := true, alive := false, exitCode := some 1, writeRaises := true }

def deadPtySession : Session := { demoSession with ptyProcess := some deadPty }

def deadPtyManager : Manager := { sessions := [("s1", deadPtySession)] }

/-! ## Claim C5 — process state right after creation -/

/-- C5 counterexample: `create_session` assigns `ProcessState.RUNNING`
to the new session (source line 124), not STARTING; the session's state
immediately after create is RUNNING. -/
theorem c5_counterexample_created_running :
    (createSession {} "n" "/tmp" "sid" {} demoMatcher "").2.processState
        ≠ ProcessState.starting ∧
    (createSession {} "n" "/tmp" "sid" {} demoMatcher "").2.processState
        = ProcessState.running := by
  exact ⟨by decide, rfl⟩

/-- C5 (amended): every newly created session has process state RUNNING
and attention state NONE immediately after create; the STARTING state is
never assigned, so no transition happens on first output. -/
theorem c5_created_session_running (m : Manager) (name workingDir sid : String)
    (pty : PTYProcess) (matcher : Matcher) (profile : String) :
    (createSession m name workingDir sid pty matcher profile).2.processState
        = ProcessState.running ∧
    (createSession m name workingDir sid pty matcher profile).2.attentionState
        = AttentionState.none ∧
    alGet (createSession m name workingDir sid pty matcher profile).1.sessions sid
        = some (createSession m name workingDir sid pty matcher profile).2 := by
  refine ⟨rfl, rfl, ?_⟩
  show alGet (resetIdleTimer _ sid).sessions sid = _
  rw [resetIdleTimer_sessions]
  exact alGet_alSet_self _ _ _

/-! ## Claim C10 — unknown session ids raise KeyError -/

/-- C10: every public id-taking operation raises `KeyError` for an id
that is not in the session table (the lookup is the first statement of
each operation, so no state is touched: the error result carries no
updated manager). -/
theorem c10_unknown_id_raises_keyerror (m : Manager) (sid : String)
    (hmiss : alGet m.sessions sid = Option.none)
    (name group : String) (text : Str) (rows cols : Nat) (now : Int) :
    getSession m sid = .error .keyError ∧
    renameSession m sid name = .error .keyError ∧
    setSessionGroup m sid group = .error .keyError ∧
    deleteSession m sid = .error .keyError ∧
    sendInput m sid text now = .error .keyError ∧
    resizeSession m sid rows cols = .error .keyError ∧
    pauseSession m sid now = .error .keyError ∧
    resumeSession m sid now = .error .keyError ∧
    scanPaneContent m sid text now = .error .keyError := by
  have hm : mget m sid = .error .keyError := by
    unfold mget
    rw [hmiss]
  refine ⟨hm, ?_, ?_, ?_, ?_, ?_, ?_, ?_, ?_⟩ <;>
    simp [renameSession, setSessionGroup, deleteSession, sendInput,
      resizeSession, pauseSession, resumeSession, scanPaneContent, hm,
      except_bind_error]

/-- C10 witness at a concrete missing id. -/
theorem c10_unknown_id_raises_keyerror_witness :
    alGet demoManager.sessions "zz" = Option.none ∧
    (getSession demoManager "zz" = .error .keyError ∧
     renameSession demoManager "zz" "n" = .error .keyError ∧
     setSessionGroup demoManager "zz" "g" = .error .keyError ∧
     deleteSession demoManager "zz" = .error .keyError ∧
     sendInput demoManager "zz" [] 0 = .error .keyError ∧
     resizeSession demoManager "zz" 24 80 = .error .keyError ∧
     pauseSession demoManager "zz" 0 = .error .keyError ∧
     resumeSession demoManager "zz" 0 = .error .keyError ∧
     scanPaneContent demoManager "zz" [] 0 = .error .keyError) :=
  ⟨rfl, c10_unknown_id_raises_keyerror demoManager "zz" rfl "n" "g" [] 24 80 0⟩

/-- Split a paired state projection of an optional session. -/
theorem optionMap_pair_split (o : Option Session) {P : ProcessState}
    {A : AttentionState}
    (h : o.map (fun x => (x.processState, x.attentionState)) = some (P, A)) :
    o.map Session.processState = some P ∧
    o.map Session.attentionState = some A := by
  cases o with
  | none => exact absurd h (by simp)
  | some x =>
    simp only [Option.map_some'] at h ⊢
    injection h with h
    have h1 : x.processState = P := congrArg Prod.fst h
    have h2 : x.attentionState = A := congrArg Prod.snd h
    exact ⟨by rw [h1], by rw [h2]⟩

/-! ## Claim C9 — PTY write errors on a dead session -/

/-- C9: when the session's pty is dead and the master-side write raises
`OSError`, `send_input` raises before touching any state (the write is
its first effect), and the application's key-forwarding path catches the
error, logs it at debug and leaves the manager unchanged, so nothing
propagates further. -/
theorem c9_dead_session_write_logged_ignored (m : Manager) (sid : String)
    (s : Session) (p : PTYProcess) (text : Str) (now : Int)
    (hs : alGet m.sessions sid = some s)
    (hp : s.ptyProcess = some p)
    (hdead : p.alive = false)
    (hstarted : p.started = true)
    (hraises : p.writeRaises = true) :
    sendInput m sid text now = .error .osError ∧
    handleSendInput m sid text now = .ok (m, [], true) := by
  have hm : mget m sid = .ok s := by
    unfold mget
    rw [hs]
  have hw : p.write text = .error .osError := by
    unfold PTYProcess.write
    rw [hstarted, hraises]
    rfl
  have hsend : sendInput m sid text now = .error .osError := by
    simp only [sendInput, hm, except_bind_ok, hp, hw]
    rfl
  exact ⟨hsend, by unfold handleSendInput; rw [hsend]⟩

/-- C9 witness at a concrete dead-pty session. -/
theorem c9_dead_session_write_logged_ignored_witness :
    (alGet deadPtyManager.sessions "s1" = some deadPtySession ∧
     deadPtySession.ptyProcess = some deadPty ∧
     deadPty.alive = false ∧ deadPty.started = true ∧ deadPty.writeRaises = true) ∧
    (sendInput deadPtyManager "s1" ("ls\n".toList) 0 = .error .osError ∧
     handleSendInput deadPtyManager "s1" ("ls\n".toList) 0 =
       .ok (deadPtyManager, [], true)) :=
  ⟨⟨rfl, rfl, rfl, rfl, rfl⟩,
   c9_dead_session_write_logged_ignored deadPtyManager "s1" deadPtySession deadPty
     ("ls\n".toList) 0 rfl rfl rfl rfl rfl⟩

/-! ## Claim C6 — EOF handling -/

/-- The fixture manager attached to a loop with a pending idle timer. -/
def demoManagerIdle : Manager :=
  { demoManager with loopAttached := true, idleTimers := ["s1"] }

/-- C6 counterexample: the EOF branch cancels the weak-prompt timer and
drops the scan fragment but does NOT cancel the pending idle timer — it
is still armed after the EOF chunk (it is cancelled only by
`delete_session`; its later fire is a no-op on a non-RUNNING session). -/
theorem c6_counterexample_idle_timer_not_cancelled :
    alGet demoManagerIdle.sessions "s1" = some demoSession ∧
    demoManagerIdle.idleTimers = ["s1"] ∧
    (onSessionOutputEOF demoManagerIdle "s1" 0).1.idleTimers = ["s1"] := by
  exact ⟨rfl, rfl, by decide⟩

/-- C6 (amended): on the EOF chunk the supervisor cancels the session's
weak-prompt timer, drops the scan fragment, records the pty's exit code,
sets attention to ERROR_SEEN when that exit code is not zero, and moves
the process state to EXITED — but it does not cancel the idle timer,
which stays exactly as it was.  (Stated for a session with no pending
incremental-decoder state, the EOF shape the reader delivers after
complete chunks.) -/
theorem c6_eof_transitions (m : Manager) (sid : String) (s : Session) (now : Int)
    (hs : alGet m.sessions sid = some s)
    (hflush : alGet m.utf8Pending sid = Option.none) :
    alGet (onSessionOutputEOF m sid now).1.weakPromptTimers sid = Option.none ∧
    alGet (onSessionOutputEOF m sid now).1.scanTails sid = Option.none ∧
    (onSessionOutputEOF m sid now).1.idleTimers = m.idleTimers ∧
    (alGet (onSessionOutputEOF m sid now).1.sessions sid).map Session.exitCode =
      some (s.ptyProcess.bind PTYProcess.exitCode) ∧
    (alGet (onSessionOutputEOF m sid now).1.sessions sid).map Session.processState =
      some ProcessState.exited ∧
    (s.ptyProcess.bind PTYProcess.exitCode ≠ some 0 →
      (alGet (onSessionOutputEOF m sid now).1.sessions sid).map
        Session.attentionState = some AttentionState.errorSeen) := by
  have hnb : ¬ ((Option.getD (Option.none : Option Str) []) ≠ []) := by simp
  have heq : onSessionOutputEOF m sid now =
      (let m4 : Manager :=
        { m with utf8Pending := alPop m.utf8Pending sid,
                 weakPromptTimers := alPop m.weakPromptTimers sid,
                 scanTails := alPop m.scanTails sid }
       let ec := s.ptyProcess.bind PTYProcess.exitCode
       let m5 := msetSession m4 sid { s with exitCode := ec }
       let me1 :=
         if ec ≠ some 0 then setAttentionState m5 sid .errorSeen [] now
         else (m5, [])
       let me2 := setProcessState me1.1 sid .exited [] now
       (me2.1, me1.2 ++ me2.2)) := by
    unfold onSessionOutputEOF
    rw [hs]
    dsimp only
    rw [hflush, if_neg hnb]
    dsimp only [cancelWeakPromptTimer, updateSession, msetSession]
    rw [hs]
    simp only [Option.some_bind]
    cases hpp : s.ptyProcess <;> rfl
  rw [heq]
  dsimp only
  set m4 : Manager :=
    { m with utf8Pending := alPop m.utf8Pending sid,
             weakPromptTimers := alPop m.weakPromptTimers sid,
             scanTails := alPop m.scanTails sid } with hm4
  set ec := s.ptyProcess.bind PTYProcess.exitCode with hec
  set s5 : Session := { s with exitCode := ec } with hs5
  have hget5 : alGet (msetSession m4 sid s5).sessions sid = some s5 :=
    alGet_alSet_self _ _ _
  by_cases hz : ec ≠ some 0
  · rw [if_pos hz]
    obtain ⟨a', ha', _⟩ :=
      setAttentionState_session_shape (msetSession m4 sid s5) sid .errorSeen [] now
        s5 hget5
    have hatt := setAttentionState_errorSeen_final (msetSession m4 sid s5) sid [] now
      s5 hget5
    rw [ha'] at hatt
    simp only [Option.map_some'] at hatt
    injection hatt with hatt
    obtain ⟨p', hp', _⟩ := setProcessState_session_shape _ sid .exited [] now _ ha'
    have hfin := setProcessState_exited_final _ sid [] now _ ha'
    obtain ⟨hfinP, hfinA⟩ := optionMap_pair_split _ hfin
    have hoa := setAttentionState_other_fields (msetSession m4 sid s5) sid
      .errorSeen [] now
    have hop := setProcessState_other_fields
      (setAttentionState (msetSession m4 sid s5) sid .errorSeen [] now).1 sid
      .exited [] now
    refine ⟨?_, ?_, ?_, ?_, hfinP, fun _ => by rw [hfinA, hatt]⟩
    · rw [hop.2.1, hoa.2.1]
      exact alGet_alPop_self _ _
    · rw [hop.1, hoa.1]
      exact alGet_alPop_self _ _
    · rw [hop.2.2, hoa.2.2]
      rfl
    · rw [hp']
      rfl
  · rw [if_neg hz]
    obtain ⟨p', hp', _⟩ := setProcessState_session_shape _ sid .exited [] now _ hget5
    have hfin := setProcessState_exited_final _ sid [] now _ hget5
    obtain ⟨hfinP, _⟩ := optionMap_pair_split _ hfin
    have hop := setProcessState_other_fields (msetSession m4 sid s5) sid .exited [] now
    refine ⟨?_, ?_, ?_, ?_, hfinP, fun hc => absurd hc hz⟩
    · rw [hop.2.1]
      exact alGet_alPop_self _ _
    · rw [hop.1]
      exact alGet_alPop_self _ _
    · rw [hop.2.2]
      rfl
    · rw [hp']
      rfl

/-- C6 witness at the fixture session (no pty: exit code `None`, which
compares unequal to zero, so ERROR_SEEN is raised). -/
theorem c6_eof_transitions_witness :
    (alGet demoManagerIdle.sessions "s1" = some demoSession ∧
     alGet demoManagerIdle.utf8Pending "s1" = Option.none) ∧
    (alGet (onSessionOutputEOF demoManagerIdle "s1" 0).1.weakPromptTimers "s1" =
        Option.none ∧
     alGet (onSessionOutputEOF demoManagerIdle "s1" 0).1.scanTails "s1" =
        Option.none ∧
     (onSessionOutputEOF demoManagerIdle "s1" 0).1.idleTimers =
        demoManagerIdle.idleTimers ∧
     (alGet (onSessionOutputEOF demoManagerIdle "s1" 0).1.sessions "s1").map
        Session.exitCode =
        some (demoSession.ptyProcess.bind PTYProcess.exitCode) ∧
     (alGet (onSessionOutputEOF demoManagerIdle "s1" 0).1.sessions "s1").map
        Session.processState = some ProcessState.exited ∧
     (demoSession.ptyProcess.bind PTYProcess.exitCode ≠ some 0 →
       (alGet (onSessionOutputEOF demoManagerIdle "s1" 0).1.sessions "s1").map
         Session.attentionState = some AttentionState.errorSeen)) :=
  ⟨⟨rfl, rfl⟩, c6_eof_transitions demoManagerIdle "s1" demoSession 0 rfl rfl⟩

/-! ## Shared shape of the chunk pipeline -/

theorem chunkUpdateLastScanned_sessions (m : Manager) (sid : String) (tl : Str) :
    (chunkUpdateLastScanned m sid tl).sessions = m.sessions := by
  unfold chunkUpdateLastScanned
  split_ifs <;> rfl

theorem chunkUpdateLastScanned_debounceUntil (m : Manager) (sid : String) (tl : Str) :
    (chunkUpdateLastScanned m sid tl).debounceUntil = m.debounceUntil := by
  unfold chunkUpdateLastScanned
  split_ifs <;> rfl

/-- For a session whose attention is not IDLE, `_process_output_text`
factors into: output-buffer append plus timer bookkeeping (producing an
intermediate supervisor state that still holds the session, with the
appended buffer, and an untouched debounce table), followed by the
application of the chunk's winning attention and process matches. -/
theorem chunk_pipeline_shape (m : Manager) (sid : String) (text : Str) (now : Int)
    (s0 : Session) (hs : alGet m.sessions sid = some s0)
    (hni : ¬ s0.attentionState = AttentionState.idle) :
    ∃ m6 : Manager,
      alGet m6.sessions sid =
        some { s0 with outputBuffer := s0.outputBuffer.appendData text } ∧
      m6.debounceUntil = m.debounceUntil ∧
      processOutputText m sid text now =
        ((applyProcess
            (applyAttention m6 sid
              (chunkLastAttention m sid text s0.patternMatcher) now).1 sid
            ((scanMatches s0.patternMatcher (chunkCompleteLines m sid text)).2)
            now).1,
         [Emit.output sid text] ++
           (applyAttention m6 sid
             (chunkLastAttention m sid text s0.patternMatcher) now).2 ++
           (applyProcess
             (applyAttention m6 sid
               (chunkLastAttention m sid text s0.patternMatcher) now).1 sid
             ((scanMatches s0.patternMatcher (chunkCompleteLines m sid text)).2)
             now).2) := by
  refine ⟨chunkUpdateLastScanned
      { (cancelWeakPromptTimer
          (resetIdleTimer
            (msetSession m sid
              { s0 with outputBuffer := s0.outputBuffer.appendData text }) sid)
          sid) with
        scanTails :=
          alSet (cancelWeakPromptTimer
            (resetIdleTimer
              (msetSession m sid
                { s0 with outputBuffer := s0.outputBuffer.appendData text }) sid)
            sid).scanTails sid (chunkNewTail m sid text) }
      sid (chunkNewTail m sid text), ?_, ?_, ?_⟩
  · rw [chunkUpdateLastScanned_sessions]
    show alGet (resetIdleTimer _ sid).sessions sid = _
    rw [resetIdleTimer_sessions]
    exact alGet_alSet_self _ _ _
  · rw [chunkUpdateLastScanned_debounceUntil]
    show (resetIdleTimer _ sid).debounceUntil = _
    rw [resetIdleTimer_debounceUntil]
    rfl
  · unfold processOutputText
    rw [hs]
    dsimp only
    rw [if_neg hni]
    rfl

/-- Final-manager component of the pipeline, valid for every starting
attention state (the IDLE-clear step may or may not rewrite the session
first; only presence matters downstream). -/
theorem chunk_pipeline_state (m : Manager) (sid : String) (text : Str) (now : Int)
    (s0 : Session) (hs : alGet m.sessions sid = some s0) :
    ∃ (m6 : Manager) (s' : Session),
      alGet m6.sessions sid = some s' ∧
      (processOutputText m sid text now).1 =
        (applyProcess
          (applyAttention m6 sid
            (chunkLastAttention m sid text s0.patternMatcher) now).1 sid
          ((scanMatches s0.patternMatcher (chunkCompleteLines m sid text)).2)
          now).1 := by
  by_cases hidle : s0.attentionState = AttentionState.idle
  · have hm2 : alGet (resetIdleTimer
        (msetSession m sid
          { s0 with outputBuffer := s0.outputBuffer.appendData text }) sid).sessions
        sid = some { s0 with outputBuffer := s0.outputBuffer.appendData text } := by
      rw [resetIdleTimer_sessions]
      exact alGet_alSet_self _ _ _
    obtain ⟨a', ha', _⟩ := setAttentionState_session_shape _ sid .none [] now _ hm2
    refine ⟨chunkUpdateLastScanned
        { (cancelWeakPromptTimer
            (setAttentionState (resetIdleTimer
              (msetSession m sid
                { s0 with outputBuffer := s0.outputBuffer.appendData text }) sid)
              sid .none [] now).1 sid) with
          scanTails :=
            alSet (cancelWeakPromptTimer
              (setAttentionState (resetIdleTimer
                (msetSession m sid
                  { s0 with outputBuffer := s0.outputBuffer.appendData text }) sid)
                sid .none [] now).1 sid).scanTails sid (chunkNewTail m sid text) }
        sid (chunkNewTail m sid text),
      { { s0 with outputBuffer := s0.outputBuffer.appendData text } with
          attentionState := a' }, ?_, ?_⟩
    · rw [chunkUpdateLastScanned_sessions]
      exact ha'
    · unfold processOutputText
      rw [hs]
      dsimp only
      rw [if_pos hidle]
  · obtain ⟨m6, hm6s, _, heq⟩ := chunk_pipeline_shape m sid text now s0 hs hidle
    exact ⟨m6, _, hm6s, congrArg (fun x => x.1) heq⟩

/-- `applyProcess` (a completion-driven EXITED transition, or nothing)
preserves every session's attention state. -/
theorem applyProcess_attention (m : Manager) (sid : String)
    (lp : Option (String × Str)) (now : Int) :
    (alGet (applyProcess m sid lp now).1.sessions sid).map Session.attentionState
      = (alGet m.sessions sid).map Session.attentionState := by
  cases lp with
  | none => rfl
  | some p =>
    obtain ⟨a, b⟩ := p
    exact setProcessState_attention m sid .exited b now

/-! ## Claim C1 — last match wins: error then prompt gives NEEDS_INPUT -/

/-- C1: a chunk whose complete lines contain an `error`-matching line
followed by a later `prompt`-matching line ends with attention
NEEDS_INPUT, the prompt being the chunk's last attention-class match
(the winner, as the claim's last-match-wins proviso states: it is not
overridden by a later attention-class line or by a weak-prompt tail). -/
theorem c1_error_then_prompt_needs_input (m : Manager) (sid : String)
    (s0 : Session) (text : Str) (now : Int) (i j : Nat) (li lj t1 : Str)
    (hs : alGet m.sessions sid = some s0)
    (hij : i < j)
    (hi : (chunkCompleteLines m sid text).get? i = some li)
    (hiErr : (s0.patternMatcher li).map ScanHit.category = some "error")
    (hj : (chunkCompleteLines m sid text).get? j = some lj)
    (hjPr : (s0.patternMatcher lj).map ScanHit.category = some "prompt")
    (hwin : chunkLastAttention m sid text s0.patternMatcher =
      some ("prompt", t1)) :
    (alGet (processOutputText m sid text now).1.sessions sid).map
      Session.attentionState = some AttentionState.needsInput := by
  obtain ⟨m6, s6, hs6, heq1⟩ := chunk_pipeline_state m sid text now s0 hs
  rw [heq1, applyProcess_attention, hwin]
  dsimp only [applyAttention]
  rw [if_neg (by decide), if_pos rfl]
  exact setAttentionState_needsInput_final m6 sid t1 now s6 hs6

/-- C1 witness on a concrete error-then-prompt chunk. -/
theorem c1_error_then_prompt_needs_input_witness :
    (alGet demoManager.sessions "s1" = some demoSession ∧
     (0 : Nat) < 1 ∧
     (chunkCompleteLines demoManager "s1"
        ("Error: boom\nContinue? [y/n]\n".toList)).get? 0 =
       some ("Error: boom".toList) ∧
     (demoSession.patternMatcher ("Error: boom".toList)).map ScanHit.category =
       some "error" ∧
     (chunkCompleteLines demoManager "s1"
        ("Error: boom\nContinue? [y/n]\n".toList)).get? 1 =
       some ("Continue? [y/n]".toList) ∧
     (demoSession.patternMatcher ("Continue? [y/n]".toList)).map ScanHit.category =
       some "prompt" ∧
     chunkLastAttention demoManager "s1"
        ("Error: boom\nContinue? [y/n]\n".toList) demoSession.patternMatcher =
       some ("prompt", "Continue? [y/n]".toList)) ∧
    (alGet (processOutputText demoManager "s1"
        ("Error: boom\nContinue? [y/n]\n".toList) 0).1.sessions "s1").map
      Session.attentionState = some AttentionState.needsInput :=
  ⟨⟨rfl, by decide, by decide, by decide, by decide, by decide, by decide⟩,
   c1_error_then_prompt_needs_input demoManager "s1" demoSession
     ("Error: boom\nContinue? [y/n]\n".toList) 0 0 1
     ("Error: boom".toList) ("Continue? [y/n]".toList)
     ("Continue? [y/n]".toList) rfl (by decide) (by decide) (by decide)
     (by decide) (by decide) (by decide)⟩

/-! ## Claim C7 — callback order within a chunk -/

/-- C7 counterexample: for a chunk carrying both a winning prompt match
and a winning completion match, the source applies the attention
transition first (lines 333-340) and the completion-driven EXITED
transition second (lines 341-343), so the emitted callbacks are
(attention, then process) — the opposite of the claimed order. -/
theorem c7_counterexample_callback_order :
    (processOutputText demoManager "s1"
        ("Continue? [y/n]\nTask completed\n".toList) 0).2 =
      [Emit.output "s1" ("Continue? [y/n]\nTask completed\n".toList),
       Emit.statusChange "s1" SessionState.active SessionState.waiting
         ("Continue? [y/n]".toList),
       Emit.statusChange "s1" SessionState.waiting SessionState.done
         ("Task completed".toList)] := by
  decide

/-- C7 (amended): when a chunk carries both a winning attention-class
`prompt` match and a winning `completion` match (session RUNNING with no
attention), the emitted callback order is: the chunk-output callback,
then the winning attention transition, then the completion-driven
process transition to EXITED. -/
theorem c7_attention_callback_before_completion (m : Manager) (sid : String)
    (s0 : Session) (text : Str) (now : Int) (t1 : Str) (c2 : String) (t2 : Str)
    (hs : alGet m.sessions sid = some s0)
    (hps : s0.processState = ProcessState.running)
    (has : s0.attentionState = AttentionState.none)
    (hla : chunkLastAttention m sid text s0.patternMatcher = some ("prompt", t1))
    (hlp : (scanMatches s0.patternMatcher (chunkCompleteLines m sid text)).2 =
      some (c2, t2)) :
    (processOutputText m sid text now).2 =
      [Emit.output sid text,
       Emit.statusChange sid SessionState.active SessionState.waiting t1,
       Emit.statusChange sid SessionState.waiting SessionState.done t2] := by
  obtain ⟨m6, hm6s, _, heq⟩ :=
    chunk_pipeline_shape m sid text now s0 hs (by rw [has]; decide)
  rw [heq]
  rw [hla, hlp]
  dsimp only [applyAttention, applyProcess]
  rw [if_neg (by decide), if_pos rfl]
  set s1 : Session := { s0 with outputBuffer := s0.outputBuffer.appendData text }
    with hs1
  have hv1 : validAttentionTransition s1.attentionState AttentionState.needsInput
      = true := by
    show validAttentionTransition s0.attentionState AttentionState.needsInput = true
    rw [has]
    rfl
  have pass1 := setAttentionState_pass m6 sid .needsInput t1 now s1 hm6s hv1
    (Or.inl rfl)
  set s2 : Session := { s1 with attentionState := AttentionState.needsInput }
    with hs2
  have hst1 : s1.status = SessionState.active := by
    show computeSessionState s0.processState s0.attentionState = _
    rw [hps, has]
    rfl
  have hst2 : s2.status = SessionState.waiting := by
    show computeSessionState s0.processState AttentionState.needsInput = _
    rw [hps]
    rfl
  have hs7 : alGet (setAttentionState m6 sid .needsInput t1 now).1.sessions sid
      = some s2 := by
    rw [pass1.1]
    exact alGet_alSet_self _ _ _
  have hv2 : validProcessTransition s2.processState ProcessState.exited = true := by
    show validProcessTransition s0.processState ProcessState.exited = true
    rw [hps]
    rfl
  have pass2 := setProcessState_pass (setAttentionState m6 sid .needsInput t1 now).1
    sid .exited t2 now s2 hs7 hv2 (Or.inl rfl)
  set s3 : Session := { s2 with processState := ProcessState.exited } with hs3
  have hst3 : s3.status = SessionState.done := by
    show computeSessionState ProcessState.exited AttentionState.needsInput = _
    rfl
  rw [pass1.2, pass2.2, if_pos (by rw [hst1, hst2]; decide),
    if_pos (by rw [hst2, hst3]; decide), hst1, hst2, hst3]
  rfl

/-- C7 witness on a concrete prompt-then-completion chunk. -/
theorem c7_attention_callback_before_completion_witness :
    (alGet demoManager.sessions "s1" = some demoSession ∧
     demoSession.processState = ProcessState.running ∧
     demoSession.attentionState = AttentionState.none ∧
     chunkLastAttention demoManager "s1"
        ("Continue? [y/n]\nTask completed\n".toList) demoSession.patternMatcher =
       some ("prompt", "Continue? [y/n]".toList) ∧
     (scanMatches demoSession.patternMatcher (chunkCompleteLines demoManager "s1"
        ("Continue? [y/n]\nTask completed\n".toList))).2 =
       some ("completion", "Task completed".toList)) ∧
    (processOutputText demoManager "s1"
        ("Continue? [y/n]\nTask completed\n".toList) 0).2 =
      [Emit.output "s1" ("Continue? [y/n]\nTask completed\n".toList),
       Emit.statusChange "s1" SessionState.active SessionState.waiting
         ("Continue? [y/n]".toList),
       Emit.statusChange "s1" SessionState.waiting SessionState.done
         ("Task completed".toList)] :=
  ⟨⟨rfl, rfl, rfl, by decide, by decide⟩,
   c7_attention_callback_before_completion demoManager "s1" demoSession
     ("Continue? [y/n]\nTask completed\n".toList) 0 ("Continue? [y/n]".toList)
     "completion" ("Task completed".toList) rfl rfl rfl (by decide) (by decide)⟩

/-! ## TAMEScreen alternate-screen support
(`src/tame/ui/widgets/session_viewer.py`, class `TAMEScreen`)

pyte buffer objects are mutable Python objects swapped by reference;
object identity is modelled by a numeric reference into a heap of
buffer contents (row, column to cell character), with a bump allocator
for fresh objects.  The O(1) swap of the source is the exchange of the
active reference. -/

structure Cursor where
  x : Nat := 0
  y : Nat := 0
  /-- opaque attribute bundle (`cursor.attrs`). -/
  attrs : Nat := 0
  hidden : Bool := false
deriving DecidableEq, Repr

/-- A pyte buffer's contents: row to column to cell character
(`defaultdict` of `StaticDefaultDict`). -/
abbrev Buf := Nat → Nat → Char

structure TAMEScreen where
  lines : Nat := 24
  columns : Nat := 80
  /-- identity of the active buffer object (`self.buffer`). -/
  bufferRef : Nat
  /-- contents of every allocated buffer object. -/
  heap : Nat → Buf
  /-- bump allocator: references below are allocated. -/
  nextRef : Nat
  /-- `self._alt_active`. -/
  altActive : Bool := false
  /-- `self._saved_buffer` (a reference, never a copy). -/
  savedBufferRef : Option Nat := Option.none
  /-- `self._saved_cursor`. -/
  savedCursor : Option Cursor := Option.none
  cursor : Cursor := {}
  /-- `self.default_char` of the fresh alt buffer. -/
  defaultChar : Char := ' '
  /-- `self.dirty.update(range(self.lines))` happened. -/
  dirtyAll : Bool := false

/-- `_save_cursor`. -/
def TAMEScreen.saveCursorState (s : TAMEScreen) : TAMEScreen :=
  { s with savedCursor := some s.cursor }

/-- `_restore_cursor`. -/
def TAMEScreen.restoreCursorState (s : TAMEScreen) : TAMEScreen :=
  match s.savedCursor with
  | some c => { s with cursor := c, savedCursor := Option.none }
  | Option.none => s

/-- `_enter_alt_screen`: no-op when already active; otherwise an O(1)
reference swap to a freshly allocated empty buffer. -/
def TAMEScreen.enterAltScreen (s : TAMEScreen) (saveCursor : Bool) : TAMEScreen :=
  if s.altActive then s
  else
    let s1 := { s with altActive := true }
    let s2 := if saveCursor then s1.saveCursorState else s1
    { s2 with
      savedBufferRef := some s2.bufferRef,
      bufferRef := s2.nextRef,
      heap := Function.update s2.heap s2.nextRef (fun _ _ => s2.defaultChar),
      nextRef := s2.nextRef + 1,
      cursor := { s2.cursor with x := 0, y := 0 },
      dirtyAll := true }

/-- `_exit_alt_screen`: no-op when not active; otherwise the O(1)
reference restore.  (When active, `_saved_buffer` was set by the enter;
the source would assign `None` to the buffer otherwise, which this
model renders as keeping the current reference.) -/
def TAMEScreen.exitAltScreen (s : TAMEScreen) (restoreCursor : Bool) : TAMEScreen :=
  if ¬ s.altActive then s
  else
    let s1 := { s with
      altActive := false,
      bufferRef := s.savedBufferRef.getD s.bufferRef,
      savedBufferRef := Option.none }
    let s2 := if restoreCursor then s1.restoreCursorState else s1
    { s2 with dirtyAll := true }

/-- `set_mode` restricted to one private mode (non-alt modes are
delegated to the superclass, outside this model). -/
def TAMEScreen.setModePrivate (s : TAMEScreen) (mode : Nat) : TAMEScreen :=
  if mode = 47 ∨ mode = 1047 then s.enterAltScreen false
  else if mode = 1048 then s.saveCursorState
  else if mode = 1049 then s.enterAltScreen true
  else s

/-- `reset_mode` restricted to one private mode. -/
def TAMEScreen.resetModePrivate (s : TAMEScreen) (mode : Nat) : TAMEScreen :=
  if mode = 47 ∨ mode = 1047 then s.exitAltScreen false
  else if mode = 1048 then s.restoreCursorState
  else if mode = 1049 then s.exitAltScreen true
  else s

/-! ## Claim C4 — alt-screen enter/exit is an identity-preserving swap -/

/-- C4: entering the alt screen via private mode 1049 and exiting it
with no buffer-mutating action in between restores exactly the same
buffer object (the same reference, not a copy) with all cell contents
intact; entering while already in alt screen is a no-op, and exiting
without a prior enter is a no-op. -/
theorem c4_alt_screen_identity (s t u : TAMEScreen)
    (hna : s.altActive = false)
    (halloc : s.bufferRef < s.nextRef)
    (ht : t.altActive = true)
    (hu : u.altActive = false) :
    ((s.setModePrivate 1049).resetModePrivate 1049).bufferRef = s.bufferRef ∧
    ((s.setModePrivate 1049).resetModePrivate 1049).heap s.bufferRef =
      s.heap s.bufferRef ∧
    (s.setModePrivate 1049).bufferRef ≠ s.bufferRef ∧
    t.enterAltScreen true = t ∧ t.enterAltScreen false = t ∧
    u.exitAltScreen true = u ∧ u.exitAltScreen false = u := by
  have henter : s.setModePrivate 1049 = s.enterAltScreen true := by
    unfold TAMEScreen.setModePrivate
    rw [if_neg (by decide), if_neg (by decide), if_pos rfl]
  have hexp : s.enterAltScreen true =
      { s with
        altActive := true,
        savedCursor := some s.cursor,
        savedBufferRef := some s.bufferRef,
        bufferRef := s.nextRef,
        heap := Function.update s.heap s.nextRef (fun _ _ => s.defaultChar),
        nextRef := s.nextRef + 1,
        cursor := { s.cursor with x := 0, y := 0 },
        dirtyAll := true } := by
    unfold TAMEScreen.enterAltScreen
    rw [if_neg (by rw [hna]; decide)]
    rfl
  have hexit : (s.setModePrivate 1049).resetModePrivate 1049 =
      { (s.setModePrivate 1049) with
        altActive := false,
        bufferRef := s.bufferRef,
        savedBufferRef := Option.none,
        cursor := s.cursor,
        savedCursor := Option.none,
        dirtyAll := true } := by
    rw [henter, hexp]
    unfold TAMEScreen.resetModePrivate
    rw [if_neg (by decide), if_neg (by decide), if_pos rfl]
    unfold TAMEScreen.exitAltScreen
    rw [if_neg (by simp)]
    rfl
  refine ⟨?_, ?_, ?_, ?_, ?_, ?_, ?_⟩
  · rw [hexit]
  · rw [hexit, henter, hexp]
    show Function.update s.heap s.nextRef (fun _ _ => s.defaultChar) s.bufferRef
      = s.heap s.bufferRef
    exact Function.update_noteq (Nat.ne_of_lt halloc) _ _
  · rw [henter, hexp]
    show s.nextRef ≠ s.bufferRef
    exact (Nat.ne_of_lt halloc).symm
  · unfold TAMEScreen.enterAltScreen
    rw [if_pos ht]
  · unfold TAMEScreen.enterAltScreen
    rw [if_pos ht]
  · unfold TAMEScreen.exitAltScreen
    rw [if_pos (by rw [hu]; decide)]
  · unfold TAMEScreen.exitAltScreen
    rw [if_pos (by rw [hu]; decide)]

/-- A concrete screen for the C4 witness. -/
def demoScreen : TAMEScreen :=
  { bufferRef := 0, heap := fun _ _ _ => 'X', nextRef := 1 }

def demoScreenAlt : TAMEScreen :=
  { bufferRef := 1, heap := fun _ _ _ => 'Y', nextRef := 2,
    altActive := true, savedBufferRef := some 0 }

/-- C4 witness on concrete screens. -/
theorem c4_alt_screen_identity_witness :
    (demoScreen.altActive = false ∧ demoScreen.bufferRef < demoScreen.nextRef ∧
     demoScreenAlt.altActive = true) ∧
    (((demoScreen.setModePrivate 1049).resetModePrivate 1049).bufferRef =
        demoScreen.bufferRef ∧
     ((demoScreen.setModePrivate 1049).resetModePrivate 1049).heap
        demoScreen.bufferRef = demoScreen.heap demoScreen.bufferRef ∧
     (demoScreen.setModePrivate 1049).bufferRef ≠ demoScreen.bufferRef ∧
     demoScreenAlt.enterAltScreen true = demoScreenAlt ∧
     demoScreenAlt.enterAltScreen false = demoScreenAlt ∧
     demoScreen.exitAltScreen true = demoScreen ∧
     demoScreen.exitAltScreen false = demoScreen) :=
  ⟨⟨rfl, by decide, rfl⟩,
   c4_alt_screen_identity demoScreen demoScreenAlt demoScreen rfl (by decide)
     rfl rfl⟩

/-! ## Claim C2 — snapshot scan vs single-chunk pipeline -/

/-- Decomposition of a successful `find?`. -/
theorem find?_decomp {p : Str → Bool} :
    ∀ {ls : List Str} {x : Str}, ls.find? p = some x →
      ∃ pre suf, ls = pre ++ x :: suf ∧ (∀ y ∈ pre, p y = false) ∧ p x = true := by
  intro ls
  induction ls with
  | nil => intro x h; cases h
  | cons a rest ih =>
    intro x h
    by_cases ha : p a = true
    · rw [List.find?_cons_of_pos _ ha] at h
      injection h with h
      subst h
      exact ⟨[], rest, rfl, by simp, ha⟩
    · rw [List.find?_cons_of_neg _ (by simpa using ha)] at h
      obtain ⟨pre, suf, hdec, hpre, hx⟩ := ih h
      exact ⟨a :: pre, suf, by rw [hdec]; rfl,
        fun y hy => by
          rcases List.mem_cons.mp hy with hy | hy
          · subst hy; simpa using ha
          · exact hpre y hy, hx⟩

theorem getLastD_irrel (l : List Str) (h : l ≠ []) (d d' : Str) :
    l.getLastD d = l.getLastD d' := by
  rw [List.getLastD_eq_getLast?, List.getLastD_eq_getLast?]
  cases hl : l.getLast? with
  | some x => rfl
  | none => exact absurd (List.getLast?_eq_none_iff.mp hl) h

theorem dropLast_append_getLastD (l : List Str) (h : l ≠ []) :
    l.dropLast ++ [l.getLastD []] = l := by
  induction l with
  | nil => exact absurd rfl h
  | cons x xs ih =>
    cases hxs : xs with
    | nil => rfl
    | cons y ys =>
      subst hxs
      rw [List.dropLast_cons₂, List.getLastD_cons,
        getLastD_irrel (y :: ys) (by simp) x [], List.cons_append, ih (by simp)]

/-- The snapshot fold skips a suffix of blank lines. -/
theorem snapScan_blank_suffix (M : Matcher) (suf : List Str)
    (hsuf : ∀ y ∈ suf, pyStrip y = []) (acc : Option PatternMatch) :
    suf.foldl (snapStep M) acc = acc := by
  induction suf generalizing acc with
  | nil => rfl
  | cons y ys ih =>
    rw [List.foldl_cons]
    have hy : pyStrip y = [] := hsuf y (by simp)
    rw [show snapStep M acc y = acc by unfold snapStep; rw [if_pos hy]]
    exact ih (fun z hz => hsuf z (by simp [hz])) acc

/-- When the final non-blank line of the pane matches, it is the
snapshot fold's overall last match. -/
theorem snapScan_last (M : Matcher) (pre suf : List Str) (x : Str)
    (h : ScanHit) (hx : M x = some h) (hxs : ¬ pyStrip x = [])
    (hsuf : ∀ y ∈ suf, pyStrip y = []) :
    snapScan M (pre ++ x :: suf) =
      some { category := h.category, patternIndex := h.patternIndex,
             matchedText := h.matchedText, line := x } := by
  unfold snapScan
  rw [List.foldl_append, List.foldl_cons]
  rw [show snapStep M (pre.foldl (snapStep M) Option.none) x =
      some { category := h.category, patternIndex := h.patternIndex,
             matchedText := h.matchedText, line := x } by
    unfold snapStep
    rw [if_neg hxs]
    unfold scanLine
    rw [hx]
    rfl]
  exact snapScan_blank_suffix M suf hsuf _

/-- Attention-class categories. -/
def attCat (c : String) : Prop := c = "error" ∨ c = "prompt"

/-- Correspondence between the snapshot fold's accumulator and the
chunk fold's accumulator pair. -/
def scanRel (snap : Option PatternMatch)
    (acc : Option (String × Str) × Option (String × Str)) : Prop :=
  match snap with
  | Option.none => acc.1 = Option.none ∧ acc.2 = Option.none
  | some pm =>
    (attCat pm.category ∧ acc.1 = some (pm.category, pyStrip pm.line)) ∨
    (pm.category = "completion" ∧ acc.2 = some (pm.category, pyStrip pm.line))

/-- The two folds stay in correspondence over lines with no surrounding
whitespace whose matches carry only the applied categories. -/
theorem scanRel_fold (M : Matcher) (ls : List Str)
    (hstrip : ∀ l ∈ ls, pyStrip l = l)
    (hcats : ∀ l ∈ ls, ∀ h, M l = some h →
      h.category = "error" ∨ h.category = "prompt" ∨ h.category = "completion") :
    ∀ (snap : Option PatternMatch)
      (acc : Option (String × Str) × Option (String × Str)),
      scanRel snap acc →
      scanRel (ls.foldl (snapStep M) snap) (ls.foldl (scanStep M) acc) := by
  induction ls with
  | nil => intro snap acc h; exact h
  | cons l rest ih =>
    intro snap acc hrel
    rw [List.foldl_cons, List.foldl_cons]
    apply ih (fun y hy => hstrip y (by simp [hy]))
      (fun y hy => hcats y (by simp [hy]))
    have hl : pyStrip l = l := hstrip l (by simp)
    by_cases hnil : l = []
    · subst hnil
      rw [show snapStep M snap [] = snap by unfold snapStep; rw [if_pos hl]]
      rw [show scanStep M acc [] = acc by unfold scanStep; rw [if_pos rfl]]
      exact hrel
    · have hsne : ¬ pyStrip l = [] := by rw [hl]; exact hnil
      cases hM : M l with
      | none =>
        rw [show snapStep M snap l = snap by
          unfold snapStep; rw [if_neg hsne]; unfold scanLine; rw [hM]; rfl]
        rw [show scanStep M acc l = acc by
          unfold scanStep; rw [if_neg hnil]; unfold scanLine; rw [hM]; rfl]
        exact hrel
      | some h =>
        have hsnap : snapStep M snap l =
            some { category := h.category, patternIndex := h.patternIndex,
                   matchedText := h.matchedText, line := l } := by
          unfold snapStep
          rw [if_neg hsne]
          unfold scanLine
          rw [hM]
          rfl
        have hpm : scanLine M l =
            some { category := h.category, patternIndex := h.patternIndex,
                   matchedText := h.matchedText, line := l } := by
          unfold scanLine
          rw [hM]
          rfl
        rcases hcats l (by simp) h hM with hc | hc | hc
        · have hstep : scanStep M acc l = (some (h.category, pyStrip l), acc.2) := by
            simp only [scanStep, if_neg hnil, hpm]
            rw [if_pos (by rw [hc]; exact Or.inl rfl)]
          rw [hsnap, hstep]
          exact Or.inl ⟨Or.inl hc, rfl⟩
        · have hstep : scanStep M acc l = (some (h.category, pyStrip l), acc.2) := by
            simp only [scanStep, if_neg hnil, hpm]
            rw [if_pos (by rw [hc]; exact Or.inr (Or.inl rfl))]
          rw [hsnap, hstep]
          exact Or.inl ⟨Or.inr hc, rfl⟩
        · have hstep : scanStep M acc l = (acc.1, some (h.category, pyStrip l)) := by
            simp only [scanStep, if_neg hnil, hpm]
            rw [if_neg (by rw [hc]; decide), if_pos (by rw [hc])]
          rw [hsnap, hstep]
          exact Or.inr ⟨hc, rfl⟩

/-- C2 counterexample: for a pane text whose lines carry both a prompt
match and a later completion match, the chunk pipeline applies both
winners — final state (EXITED, NEEDS_INPUT) — while the snapshot scan
applies only the single overall last match — final state (EXITED,
NONE).  The two disagree on attention, and the difference does not
involve `progress` matches. -/
theorem c2_counterexample_snapshot_differs :
    (alGet (processOutputText demoManager "s1"
        ("Continue? [y/n]\nTask completed\n".toList) 0).1.sessions "s1").map
      (fun x => (x.processState, x.attentionState)) =
      some (ProcessState.exited, AttentionState.needsInput) ∧
    (scanPaneContent demoManager "s1"
        ("Continue? [y/n]\nTask completed\n".toList) 0).map
      (fun r => (alGet r.1.sessions "s1").map
        (fun x => (x.processState, x.attentionState))) =
      Except.ok (some (ProcessState.exited, AttentionState.none)) := by
  exact ⟨by decide, by rfl⟩

/-- C2 (amended): for a fresh session (RUNNING, attention NONE, no
retained scan fragment) and a pane text that ends in a newline, whose
lines carry no surrounding whitespace, whose matches are all of the
applied categories `error`, `prompt` or `completion`, and whose
complete lines do not produce both an attention-class winner and a
completion winner, the snapshot scan yields the same final
(process_state, attention_state) pair as delivering the text as one
chunk through the complete-line pipeline; and the snapshot never
mutates the session's OutputBuffer and emits no chunk output. -/
theorem c2_snapshot_matches_chunk (m : Manager) (sid : String) (s : Session)
    (text : Str) (now : Int)
    (hs : alGet m.sessions sid = some s)
    (hps : s.processState = ProcessState.running)
    (has : s.attentionState = AttentionState.none)
    (hmTails : alGet m.scanTails sid = Option.none)
    (htail : (splitNl (stripAnsi text)).getLastD [] = [])
    (hstrip : ∀ l ∈ splitNl (stripAnsi text), pyStrip l = l)
    (hcats : ∀ l ∈ splitNl (stripAnsi text), ∀ h, s.patternMatcher l = some h →
      h.category = "error" ∨ h.category = "prompt" ∨ h.category = "completion")
    (hnotboth : ¬ ((scanMatches s.patternMatcher
        (chunkCompleteLines m sid text)).1.isSome ∧
      (scanMatches s.patternMatcher (chunkCompleteLines m sid text)).2.isSome)) :
    ∃ ms es, scanPaneContent m sid text now = Except.ok (ms, es) ∧
      (alGet ms.sessions sid).map (fun x => (x.processState, x.attentionState)) =
        (alGet (processOutputText m sid text now).1.sessions sid).map
          (fun x => (x.processState, x.attentionState)) ∧
      (alGet ms.sessions sid).map Session.outputBuffer = some s.outputBuffer ∧
      ∀ e ∈ es, ∀ sid2 t2, e ≠ Emit.output sid2 t2 := by
  have hm : mget m sid = .ok s := by unfold mget; rw [hs]
  have hsnapeq : scanPaneContent m sid text now =
      .ok (snapApply m sid
        (snapFinal s.patternMatcher (splitNl (stripAnsi text))) now) := by
    simp only [scanPaneContent, hm, except_bind_ok]
    rfl
  -- abbreviations
  have hcomb : chunkCombined m sid text = stripAnsi text := by
    unfold chunkCombined
    rw [hmTails]
    rfl
  have hCL : chunkCompleteLines m sid text =
      (splitNl (stripAnsi text)).dropLast := by
    unfold chunkCompleteLines chunkParts
    rw [hcomb]
  have hNT : chunkNewTail m sid text = [] := by
    unfold chunkNewTail chunkParts
    rw [hcomb]
    exact htail
  have hwin : chunkLastAttention m sid text s.patternMatcher =
      (scanMatches s.patternMatcher
        ((splitNl (stripAnsi text)).dropLast)).1 := by
    unfold chunkLastAttention
    rw [hCL, hNT]
    rw [if_neg (by simp)]
  have hLne : splitNl (stripAnsi text) ≠ [] := splitNl_ne_nil _
  have hdecomp : (splitNl (stripAnsi text)).dropLast ++ [[]] =
      splitNl (stripAnsi text) := by
    have h1 := dropLast_append_getLastD (splitNl (stripAnsi text)) hLne
    rw [htail] at h1
    exact h1
  have hmemLD : ∀ l ∈ (splitNl (stripAnsi text)).dropLast,
      l ∈ splitNl (stripAnsi text) := by
    intro l hl
    rw [← hdecomp]
    exact List.mem_append_left _ hl
  have hsnapLD : snapScan s.patternMatcher (splitNl (stripAnsi text)) =
      snapScan s.patternMatcher ((splitNl (stripAnsi text)).dropLast) := by
    conv_lhs => rw [← hdecomp]
    unfold snapScan
    rw [List.foldl_append]
    exact snapScan_blank_suffix _ [[]] (by intro y hy; simp at hy; rw [hy]; rfl) _
  have hrel := scanRel_fold s.patternMatcher
    ((splitNl (stripAnsi text)).dropLast)
    (fun l hl => hstrip l (hmemLD l hl))
    (fun l hl => hcats l (hmemLD l hl))
    Option.none (Option.none, Option.none) ⟨rfl, rfl⟩
  -- resolve the final-line override
  have hfinal : snapFinal s.patternMatcher (splitNl (stripAnsi text)) =
      snapScan s.patternMatcher ((splitNl (stripAnsi text)).dropLast) := by
    unfold snapFinal
    cases hflb : findLastNonBlank (splitNl (stripAnsi text)) with
    | none => exact hsnapLD
    | some x =>
      dsimp only
      have hxmem : x ∈ splitNl (stripAnsi text) := by
        have := List.mem_of_find?_eq_some hflb
        exact List.mem_reverse.mp this
      have hxs : pyStrip x = x := hstrip x hxmem
      rw [hxs]
      cases hMx : s.patternMatcher x with
      | none =>
        rw [show scanLine s.patternMatcher x = Option.none by
          unfold scanLine; rw [hMx]; rfl]
        exact hsnapLD
      | some hx =>
        obtain ⟨preR, sufR, hdec, hpre, hpx⟩ := find?_decomp hflb
        have hLdec : splitNl (stripAnsi text) = sufR.reverse ++ x :: preR.reverse := by
          have h2 := congrArg List.reverse hdec
          simpa using h2
        have hsufblank : ∀ y ∈ preR.reverse, pyStrip y = [] := by
          intro y hy
          have h3 := hpre y (List.mem_reverse.mp hy)
          simpa using h3
        have hxsne : ¬ pyStrip x = [] := by simpa using hpx
        have hsnapx := snapScan_last s.patternMatcher sufR.reverse preR.reverse x
          hx hMx hxsne hsufblank
        rw [← hLdec] at hsnapx
        rw [show scanLine s.patternMatcher x =
            some { category := hx.category, patternIndex := hx.patternIndex,
                   matchedText := hx.matchedText, line := x } by
          unfold scanLine; rw [hMx]; rfl]
        dsimp only
        split
        · rw [← hsnapx, hsnapLD]
        · exact hsnapLD
  -- chunk side shape
  obtain ⟨m6, hm6s, _, heqP⟩ := chunk_pipeline_shape m sid text now s hs
    (by rw [has]; decide)
  have hchunk1 : (processOutputText m sid text now).1 =
      (applyProcess (applyAttention m6 sid
        (chunkLastAttention m sid text s.patternMatcher) now).1 sid
        ((scanMatches s.patternMatcher (chunkCompleteLines m sid text)).2)
        now).1 := congrArg (fun x => x.1) heqP
  -- the fresh appended session
  have hs1ps : ({ s with outputBuffer := s.outputBuffer.appendData text }
      : Session).processState = ProcessState.running := hps
  have hs1as : ({ s with outputBuffer := s.outputBuffer.appendData text }
      : Session).attentionState = AttentionState.none := has
  rw [hsnapeq, hfinal]
  -- case split on the snapshot fold result
  cases hsnap : snapScan s.patternMatcher ((splitNl (stripAnsi text)).dropLast) with
  | none =>
    unfold snapScan at hsnap
    rw [hsnap] at hrel
    simp only [scanRel] at hrel
    have hla0 : (scanMatches s.patternMatcher
        ((splitNl (stripAnsi text)).dropLast)).1 = Option.none := hrel.1
    have hlp0 : (scanMatches s.patternMatcher
        (chunkCompleteLines m sid text)).2 = Option.none := by
      rw [hCL]
      exact hrel.2
    refine ⟨m, [], rfl, ?_, by rw [hs]; rfl, by intro e he; cases he⟩
    rw [hchunk1, hlp0, hwin, hla0]
    show (alGet m.sessions sid).map _ = (alGet m6.sessions sid).map _
    rw [hs, hm6s]
    simp only [Option.map_some']
  | some pm =>
    unfold snapScan at hsnap
    rw [hsnap] at hrel
    simp only [scanRel] at hrel
    rcases hrel with ⟨hcat, hla⟩ | ⟨hcat, hlp⟩
    · -- attention-class winner; completion side must be empty
      have hlaS : (scanMatches s.patternMatcher
          ((splitNl (stripAnsi text)).dropLast)).1 =
          some (pm.category, pyStrip pm.line) := hla
      have hlp0 : (scanMatches s.patternMatcher
          (chunkCompleteLines m sid text)).2 = Option.none := by
        rw [hCL]
        by_contra hne
        exact hnotboth ⟨by rw [hCL, hlaS]; rfl,
          by rw [hCL]; exact Option.ne_none_iff_isSome.mp hne⟩
      have hwin2 : chunkLastAttention m sid text s.patternMatcher =
          some (pm.category, pyStrip pm.line) := by rw [hwin]; exact hlaS
      rcases hcat with hce | hcp
      · -- error
        have happS : snapApply m sid (some pm) now =
            setAttentionState m sid AttentionState.errorSeen
              (pyStrip pm.line) now := by
          unfold snapApply
          dsimp only
          rw [hce, if_pos rfl]
        have happA : applyAttention m6 sid
            (some (pm.category, pyStrip pm.line)) now =
            setAttentionState m6 sid AttentionState.errorSeen
              (pyStrip pm.line) now := by
          unfold applyAttention
          dsimp only
          rw [hce, if_pos rfl]
        have happP0 : (applyProcess (setAttentionState m6 sid
            AttentionState.errorSeen (pyStrip pm.line) now).1 sid
            Option.none now).1 =
            (setAttentionState m6 sid AttentionState.errorSeen
              (pyStrip pm.line) now).1 := rfl
        obtain ⟨a6, ha6, _⟩ := setAttentionState_session_shape m6 sid .errorSeen
          (pyStrip pm.line) now _ hm6s
        have hatt6 := setAttentionState_errorSeen_final m6 sid (pyStrip pm.line)
          now _ hm6s
        rw [ha6] at hatt6
        simp only [Option.map_some'] at hatt6
        injection hatt6 with hatt6
        obtain ⟨aS, haS, _⟩ := setAttentionState_session_shape m sid .errorSeen
          (pyStrip pm.line) now s hs
        have hattS := setAttentionState_errorSeen_final m sid (pyStrip pm.line)
          now s hs
        rw [haS] at hattS
        simp only [Option.map_some'] at hattS
        injection hattS with hattS
        have hpassS := setAttentionState_pass m sid .errorSeen (pyStrip pm.line)
          now s hs (by rw [has]; rfl) (Or.inl rfl)
        refine ⟨(setAttentionState m sid AttentionState.errorSeen
            (pyStrip pm.line) now).1,
          (setAttentionState m sid AttentionState.errorSeen
            (pyStrip pm.line) now).2,
          by rw [happS], ?_, ?_, ?_⟩
        · rw [hchunk1, hlp0, hwin2, happA, happP0, haS, ha6]
          simp only [Option.map_some']
          rw [hattS, hatt6]
        · rw [haS]
          rfl
        · intro e he sid2 t2 hcon
          rw [hpassS.2] at he
          revert he
          split
          · intro he
            simp at he
            subst he
            simp at hcon
          · intro he
            cases he
      · -- prompt
        have happS : snapApply m sid (some pm) now =
            setAttentionState m sid AttentionState.needsInput
              (pyStrip pm.line) now := by
          unfold snapApply
          dsimp only
          rw [hcp, if_neg (by decide), if_pos rfl]
        have happA : applyAttention m6 sid
            (some (pm.category, pyStrip pm.line)) now =
            setAttentionState m6 sid AttentionState.needsInput
              (pyStrip pm.line) now := by
          unfold applyAttention
          dsimp only
          rw [hcp, if_neg (by decide), if_pos rfl]
        have happP0 : (applyProcess (setAttentionState m6 sid
            AttentionState.needsInput (pyStrip pm.line) now).1 sid
            Option.none now).1 =
            (setAttentionState m6 sid AttentionState.needsInput
              (pyStrip pm.line) now).1 := rfl
        obtain ⟨a6, ha6, _⟩ := setAttentionState_session_shape m6 sid .needsInput
          (pyStrip pm.line) now _ hm6s
        have hatt6 := setAttentionState_needsInput_final m6 sid (pyStrip pm.line)
          now _ hm6s
        rw [ha6] at hatt6
        simp only [Option.map_some'] at hatt6
        injection hatt6 with hatt6
        obtain ⟨aS, haS, _⟩ := setAttentionState_session_shape m sid .needsInput
          (pyStrip pm.line) now s hs
        have hattS := setAttentionState_needsInput_final m sid (pyStrip pm.line)
          now s hs
        rw [haS] at hattS
        simp only [Option.map_some'] at hattS
        injection hattS with hattS
        have hpassS := setAttentionState_pass m sid .needsInput (pyStrip pm.line)
          now s hs (by rw [has]; rfl) (Or.inl rfl)
        refine ⟨(setAttentionState m sid AttentionState.needsInput
            (pyStrip pm.line) now).1,
          (setAttentionState m sid AttentionState.needsInput
            (pyStrip pm.line) now).2,
          by rw [happS], ?_, ?_, ?_⟩
        · rw [hchunk1, hlp0, hwin2, happA, happP0, haS, ha6]
          simp only [Option.map_some']
          rw [hattS, hatt6]
        · rw [haS]
          rfl
        · intro e he sid2 t2 hcon
          rw [hpassS.2] at he
          revert he
          split
          · intro he
            simp at he
            subst he
            simp at hcon
          · intro he
            cases he
    · -- completion winner; attention side must be empty
      have hlpS : (scanMatches s.patternMatcher
          ((splitNl (stripAnsi text)).dropLast)).2 =
          some (pm.category, pyStrip pm.line) := hlp
      have hla0 : (scanMatches s.patternMatcher
          ((splitNl (stripAnsi text)).dropLast)).1 = Option.none := by
        by_contra hne
        exact hnotboth ⟨by rw [hCL]; exact Option.ne_none_iff_isSome.mp hne,
          by rw [hCL, hlpS]; rfl⟩
      have hwin0 : chunkLastAttention m sid text s.patternMatcher =
          Option.none := by rw [hwin]; exact hla0
      have hlp2 : (scanMatches s.patternMatcher
          (chunkCompleteLines m sid text)).2 =
          some (pm.category, pyStrip pm.line) := by rw [hCL]; exact hlpS
      have happS : snapApply m sid (some pm) now =
          setProcessState m sid ProcessState.exited (pyStrip pm.line) now := by
        unfold snapApply
        dsimp only
        rw [hcat, if_neg (by decide), if_neg (by decide), if_pos rfl]
      have happA0 : (applyAttention m6 sid Option.none now).1 = m6 := rfl
      have happP : applyProcess m6 sid
          (some (pm.category, pyStrip pm.line)) now =
          setProcessState m6 sid ProcessState.exited (pyStrip pm.line) now := rfl
      obtain ⟨pS, hpS, _⟩ := setProcessState_session_shape m sid .exited
        (pyStrip pm.line) now s hs
      have hfinS := setProcessState_exited_final m sid (pyStrip pm.line) now s hs
      have hfin6 := setProcessState_exited_final m6 sid (pyStrip pm.line) now _ hm6s
      have hpassS := setProcessState_pass m sid .exited (pyStrip pm.line) now s hs
        (by rw [hps]; rfl) (Or.inl rfl)
      refine ⟨(setProcessState m sid ProcessState.exited
          (pyStrip pm.line) now).1,
        (setProcessState m sid ProcessState.exited
          (pyStrip pm.line) now).2,
        by rw [happS], ?_, ?_, ?_⟩
      · rw [hchunk1, hlp2, hwin0, happA0, happP, hfinS, hfin6, hs1as]
      · rw [hpS]
        rfl
      · intro e he sid2 t2 hcon
        rw [hpassS.2] at he
        revert he
        split
        · intro he
          simp at he
          subst he
          simp at hcon
        · intro he
          cases he

/-- C2 witness: a concrete pane text on the fixture manager for which
the snapshot scan and the one-chunk pipeline agree. -/
theorem c2_snapshot_matches_chunk_witness :
    ∃ ms es, scanPaneContent demoManager "s1"
        ("Error: x\n[y/n]\n".toList) 0 = Except.ok (ms, es) ∧
      (alGet ms.sessions "s1").map
          (fun x => (x.processState, x.attentionState)) =
        (alGet (processOutputText demoManager "s1"
            ("Error: x\n[y/n]\n".toList) 0).1.sessions "s1").map
          (fun x => (x.processState, x.attentionState)) ∧
      (alGet ms.sessions "s1").map Session.outputBuffer =
        some demoSession.outputBuffer ∧
      ∀ e ∈ es, ∀ sid2 t2, e ≠ Emit.output sid2 t2 :=
  c2_snapshot_matches_chunk demoManager "s1" demoSession
    ("Error: x\n[y/n]\n".toList) 0 rfl rfl rfl rfl (by decide) (by decide)
    (by
      have hsplit : splitNl (stripAnsi ("Error: x\n[y/n]\n".toList)) =
          ["Error: x".toList, "[y/n]".toList, []] := by decide
      intro l hl h hh
      rw [hsplit] at hl
      simp only [List.mem_cons, List.not_mem_nil, or_false] at hl
      rcases hl with h1 | h1 | h1 <;> subst h1
      · rw [show demoSession.patternMatcher ("Error: x".toList) =
            some { category := "error", patternIndex := 0,
                   matchedText := "Error:".toList } from by decide] at hh
        injection hh with hh
        subst hh
        left
        rfl
      · rw [show demoSession.patternMatcher ("[y/n]".toList) =
            some { category := "prompt", patternIndex := 0,
                   matchedText := "[y/n]".toList } from by decide] at hh
        injection hh with hh
        subst hh
        right
        left
        rfl
      · rw [show demoSession.patternMatcher ([] : Str) = Option.none
            from by decide] at hh
        exact Option.noConfusion hh)
    (by decide)

end Tame
